import Mathlib

set_option maxRecDepth 4000

/-!
Shallow embedding of the CHIP-8 processor core from `src/processor.rs` (jade),
together with theorems settling the specification claims.

Modelling conventions:
* `u8` / `u16` values are `Nat` with explicit `% 256` / `% 65536` where the
  source performs wrapping arithmetic; the register file `[u8; 16]` is a total
  function `Nat → Nat` whose meaningful domain is `0..15` (the fixed-size array
  makes indices `< 16` in-bounds by construction; every direct index in the
  source is a 4-bit nibble).
* Growable vectors (`Vec<u8>` memory, `Vec<bool>` display, `Vec<u16>` stack)
  are `List`s; the stack list head is the top of the Rust `Vec` (push/pop end).
* A Rust panic (direct out-of-bounds `Vec` indexing) is the `crash` outcome;
  a typed `Err` return is the `err` outcome, which keeps the partially mutated
  state, exactly as `&mut self` does across a `?` early return.
* `rand::random::<u8>()` is modelled by an explicit oracle argument `rnd`
  threaded into `execute`/`step` (its low byte is the generated random byte).
* `HashSet<Key>` is a `List (Fin 16)`; iteration order of
  `HashSet::difference(..).next()` is modelled as the first element of the
  filtered list (the source order is unspecified; the spec only requires
  membership in the difference).
-/

namespace Chip8

/-- Constants from the top of processor.rs. -/
def NUM_VARIABLE_REGISTERS : Nat := 16

def FLAG_REGISTER_INDEX : Nat := 0xF

def ROM_START_ADDR : Nat := 0x200

def FONT_START_ADDR : Nat := 0x50

def DISPLAY_WIDTH : Nat := 64

def DISPLAY_HEIGHT : Nat := 32

def MEMORY_SIZE : Nat := 4096

def NUM_FONT_CHARS : Nat := 16

def BYTES_PER_CHAR : Nat := 5

/-- Key is a 4-bit keypad code (the 16-variant Rust enum Key). -/
abbrev Key := Fin 16

/-- Key::try_from for a u8 value: defined exactly for values 0..=0xF. -/
def Key.tryFrom (value : Nat) : Option Key :=
  if h : value < 16 then some ⟨value, h⟩ else none

/-- Execution errors (enum ExecutionError). -/
inductive ExecutionError where
  | StackUnderflow : ExecutionError
  | RegisterIndexOutOfRange : Nat → ExecutionError
  | MemoryAccessOutOfBounds : ExecutionError
  | UnknownInstruction : Nat → ExecutionError
deriving DecidableEq, Repr

/-- Loading errors (enum LoadingError). -/
inductive LoadingError where
  | RomTooLarge : LoadingError
deriving DecidableEq, Repr

/-- Top-level errors (enum EmulatorError); Execution carries the faulting
address and raw instruction word. -/
inductive EmulatorError where
  | Loading : LoadingError → EmulatorError
  | Execution : (address : Nat) → (instruction : Nat) → ExecutionError → EmulatorError
deriving DecidableEq, Repr

/-- The five quirk switches (struct InstructionSettings). -/
structure InstructionSettings where
  use_vy_in_8xy6 : Bool
  use_vy_in_8xye : Bool
  use_bxnn_instead_bnnn : Bool
  set_vf_on_overflow_in_fx1e : Bool
  inc_i_in_fx55_and_fx65 : Bool
deriving DecidableEq, Repr

/-- InstructionSettings::default: all five quirks off. -/
def InstructionSettings.default : InstructionSettings :=
  ⟨false, false, false, false, false⟩

/-- The snapshot kept while a key-wait instruction is pending
(struct BlockingState). -/
structure BlockingState where
  keys_on_enter : List Key
deriving DecidableEq, Repr

/-- The machine state (struct Processor). -/
structure Processor where
  program_data : List Nat
  settings : InstructionSettings
  memory : List Nat
  stack : List Nat
  program_counter : Nat
  display : List Bool
  index_register : Nat
  variable_registers : Nat → Nat
  delay_timer : Nat
  sound_timer : Nat
  blocking : Option BlockingState
  keys : List Key

/-- Outcome of execute: a Rust panic (crash), a typed error together with the
(possibly partially mutated) state left behind by the early return, or the
updated state. -/
inductive ExecResult where
  | crash : ExecResult
  | err : ExecutionError → Processor → ExecResult
  | ok : Processor → ExecResult

/-- Outcome of step / load_program at the EmulatorError level. -/
inductive StepResult where
  | crash : StepResult
  | err : EmulatorError → Processor → StepResult
  | ok : Processor → StepResult

/-- Sequencing of execute fragments: a typed error or crash aborts the rest,
mirroring the `?` early return inside fn execute. -/
def ExecResult.seq (r : ExecResult) (f : Processor → ExecResult) : ExecResult :=
  match r with
  | .crash => .crash
  | .err e s => .err e s
  | .ok s => f s

/-- Get the nibble (half-byte) at `index` of `value` (fn nibble).
The source panics for index > 3; execute only ever passes literals 0–3,
so the default arm is never reached. -/
def nibble (value : Nat) (index : Nat) : Nat :=
  match index with
  | 0 => value / 4096 % 16
  | 1 => value / 256 % 16
  | 2 => value / 16 % 16
  | 3 => value % 16
  | _ => 0

/-- Pointwise update of the register file (a write through `[u8; 16]`). -/
def updateReg (regs : Nat → Nat) (i v : Nat) : Nat → Nat :=
  fun j => if j = i then v else regs j

/-- Processor::FONT, 16 glyphs of 5 bytes each. -/
def FONT : List Nat :=
  [0xF0, 0x90, 0x90, 0x90, 0xF0,
   0x20, 0x60, 0x20, 0x20, 0x70,
   0xF0, 0x10, 0xF0, 0x80, 0xF0,
   0xF0, 0x10, 0xF0, 0x10, 0xF0,
   0x90, 0x90, 0xF0, 0x10, 0x10,
   0xF0, 0x80, 0xF0, 0x10, 0xF0,
   0xF0, 0x80, 0xF0, 0x90, 0xF0,
   0xF0, 0x10, 0x20, 0x40, 0x40,
   0xF0, 0x90, 0xF0, 0x90, 0xF0,
   0xF0, 0x90, 0xF0, 0x10, 0xF0,
   0xF0, 0x90, 0xF0, 0x90, 0x90,
   0xE0, 0x90, 0xE0, 0x90, 0xE0,
   0xF0, 0x80, 0x80, 0x80, 0xF0,
   0xE0, 0x90, 0x90, 0x90, 0xE0,
   0xF0, 0x80, 0xF0, 0x80, 0xF0,
   0xF0, 0x80, 0xF0, 0x80, 0x80]

/-- Overwrite `mem[start .. start + data.length]` with `data`
(slice copy_from_slice; all call sites in the source are in-bounds). -/
def copySlice (mem : List Nat) (start : Nat) (data : List Nat) : List Nat :=
  mem.take start ++ data ++ mem.drop (start + data.length)

/-- Processor::new. Note the source copies the font starting at
ROM_START_ADDR (0x200), not FONT_START_ADDR, despite its own comment. -/
def Processor.new : Processor where
  program_data := []
  settings := InstructionSettings.default
  memory := copySlice (List.replicate MEMORY_SIZE 0) ROM_START_ADDR FONT
  stack := []
  program_counter := ROM_START_ADDR
  display := List.replicate (DISPLAY_WIDTH * DISPLAY_HEIGHT) false
  index_register := 0
  variable_registers := fun _ => 0
  delay_timer := 0
  sound_timer := 0
  blocking := none
  keys := []

/-- Processor::load_program. Returns the updated processor and the Result
value; on the RomTooLarge early return the processor is the untouched
receiver. The font is again copied at ROM_START_ADDR (source slip), and then
the ROM is copied over the same offset. Settings, blocking state and pressed
keys are not assigned. -/
def Processor.load_program (s : Processor) (program_data : List Nat) :
    Processor × Option EmulatorError :=
  let memory := List.replicate MEMORY_SIZE 0
  let memory := copySlice memory ROM_START_ADDR FONT
  let rom_size := program_data.length
  if rom_size > MEMORY_SIZE - ROM_START_ADDR then
    (s, some (.Loading .RomTooLarge))
  else
    let memory := copySlice memory ROM_START_ADDR program_data
    ({ s with
        program_data := program_data
        memory := memory
        stack := []
        program_counter := ROM_START_ADDR
        display := List.replicate (DISPLAY_WIDTH * DISPLAY_HEIGHT) false
        index_register := 0
        variable_registers := fun _ => 0
        delay_timer := 0
        sound_timer := 0 }, none)

/-- Processor::register: checked read, fn register. -/
def Processor.register (s : Processor) (index : Nat) : Except ExecutionError Nat :=
  if index < 16 then .ok (s.variable_registers index)
  else .error (.RegisterIndexOutOfRange index)

/-- Processor::set_register: checked write, fn set_register. -/
def Processor.setRegister (s : Processor) (index value : Nat) :
    Except ExecutionError Processor :=
  if index < 16 then .ok { s with variable_registers := updateReg s.variable_registers index value }
  else .error (.RegisterIndexOutOfRange index)

/-- Processor::set_flag_register: write register 15 (the expect cannot fail
since FLAG_REGISTER_INDEX = 15 < 16). -/
def Processor.setFlagRegister (s : Processor) (value : Nat) : Processor :=
  { s with variable_registers := updateReg s.variable_registers FLAG_REGISTER_INDEX value }

/-- Processor::memory (the checked read helper, fn memory). -/
def Processor.readMem (s : Processor) (address : Nat) : Except ExecutionError Nat :=
  match s.memory[address]? with
  | some v => .ok v
  | none => .error .MemoryAccessOutOfBounds

/-- Processor::set_memory (the checked write helper, fn set_memory). -/
def Processor.writeMem (s : Processor) (index value : Nat) :
    Except ExecutionError Processor :=
  if index < s.memory.length then .ok { s with memory := s.memory.set index value }
  else .error .MemoryAccessOutOfBounds

/-- Display::get: out-of-range pixel reads return off (false). -/
def Processor.pixel (s : Processor) (x y : Nat) : Bool :=
  (s.display[y * DISPLAY_WIDTH + x]?).getD false

/-- BlockingState::compare_and_update: pick the first key of the snapshot
that is absent from the live set (HashSet difference iteration modelled as
list order), and refresh the snapshot to the live set. -/
def BlockingState.compareAndUpdate (bs : BlockingState) (keys : List Key) :
    Option Key × BlockingState :=
  ((bs.keys_on_enter.filter (fun k => decide (k ∉ keys))).head?, ⟨keys⟩)

/-- Direct write through a Vec index (panics when out of bounds). -/
def vecSet (l : List Nat) (i v : Nat) : Option (List Nat) :=
  if i < l.length then some (l.set i v) else none

/-- The inner loop of the DXYN draw (for i in 0..8 over one sprite byte):
draw the bit at column dx, advance dx, break once dx reaches the right edge.
`fuel` counts the remaining iterations (8 - i at entry); the final dx is
returned (dropped by the caller). A none outcome is a panicking display
index. -/
def drawBits (s : Processor) (fuel i spriteRow dx dy : Nat) :
    Option (Processor × Nat) :=
  match fuel with
  | 0 => some (s, dx)
  | fuel + 1 =>
    let bit := spriteRow / 2 ^ (7 - i) % 2
    match s.display[dy * DISPLAY_WIDTH + dx]? with
    | none => none
    | some pixel =>
      let s :=
        if bit = 1 ∧ pixel then
          { s with
              display := s.display.set (dy * DISPLAY_WIDTH + dx) false
              variable_registers := updateReg s.variable_registers 0xF 1 }
        else if bit = 1 ∧ ¬pixel then
          { s with display := s.display.set (dy * DISPLAY_WIDTH + dx) true }
        else s
      let dx := dx + 1
      if dx ≥ DISPLAY_WIDTH then some (s, dx)
      else drawBits s fuel (i + 1) spriteRow dx dy

/-- The outer loop of the DXYN draw (for n in 0..rows): read the sprite byte
at index_register + n (direct Vec indexing, panics out of bounds), draw its
8 bits, advance dy, break at the bottom edge, reset dx to dx_orig.
`rowsLeft` counts the remaining iterations (rows - n at entry). -/
def drawRows (s : Processor) (rowsLeft n dx_orig dx dy : Nat) : Option Processor :=
  match rowsLeft with
  | 0 => some s
  | rowsLeft + 1 =>
    match s.memory[s.index_register + n]? with
    | none => none
    | some spriteRow =>
      match drawBits s 8 0 spriteRow dx dy with
      | none => none
      | some (s, _) =>
        let dy := dy + 1
        if dy ≥ DISPLAY_HEIGHT then some s
        else drawRows s rowsLeft (n + 1) dx_orig dx_orig dy

/-- The FX55 loop (for i in 0..=max): store registers 0..=max to memory at
index_register + i through the checked helpers; `fuel` is max + 1 - i. -/
def fx55Loop (s : Processor) (fuel i : Nat) : ExecResult :=
  match fuel with
  | 0 => .ok s
  | fuel + 1 =>
    match s.register i with
    | .error e => .err e s
    | .ok v =>
      match s.writeMem ((s.index_register + i) % 65536) v with
      | .error e => .err e s
      | .ok s2 => fx55Loop s2 fuel (i + 1)

/-- The FX65 loop (for i in 0..=max): load registers 0..=max from memory at
index_register + i through the checked helpers. -/
def fx65Loop (s : Processor) (fuel i : Nat) : ExecResult :=
  match fuel with
  | 0 => .ok s
  | fuel + 1 =>
    match s.readMem ((s.index_register + i) % 65536) with
    | .error e => .err e s
    | .ok v =>
      match s.setRegister i v with
      | .error e => .err e s
      | .ok s2 => fx65Loop s2 fuel (i + 1)

/-- Fragment of fn execute: the FX07 / FX15 / FX18 if-else chain. -/
def execF1 (s : Processor) (n1 n2 n3 : Nat) : ExecResult :=
  if n2 = 0 ∧ n3 = 7 then
    match s.setRegister n1 s.delay_timer with
    | .error e => .err e s
    | .ok s2 => .ok s2
  else if n2 = 1 ∧ n3 = 5 then
    match s.register n1 with
    | .error e => .err e s
    | .ok v => .ok { s with delay_timer := v }
  else if n2 = 1 ∧ n3 = 8 then
    match s.register n1 with
    | .error e => .err e s
    | .ok v => .ok { s with sound_timer := v }
  else .ok s

/-- Fragment of fn execute: the separate FX1E if statement. -/
def execF2 (s : Processor) (n1 n2 n3 : Nat) : ExecResult :=
  if n2 = 1 ∧ n3 = 0xE then
    match s.register n1 with
    | .error e => .err e s
    | .ok value =>
      let s2 := { s with index_register := (s.index_register + value) % 65536 }
      if s2.settings.set_vf_on_overflow_in_fx1e then
        if s2.index_register ≥ MEMORY_SIZE then
          match s2.setRegister 0xF 1 with
          | .error e => .err e s2
          | .ok s3 => .ok s3
        else .ok s2
      else .ok s2
  else .ok s

/-- Fragment of fn execute: the separate FX0A (key-wait) if statement.
The program counter rewind by 2 is u16 wrapping subtraction. -/
def execF3 (s : Processor) (n1 n2 n3 : Nat) : ExecResult :=
  if n2 = 0 ∧ n3 = 0xA then
    match s.blocking with
    | some bs =>
      match bs.compareAndUpdate s.keys with
      | (some key, bs2) =>
        let s2 := { s with blocking := some bs2 }
        match s2.setRegister n1 key.val with
        | .error e => .err e s2
        | .ok s3 => .ok { s3 with blocking := none }
      | (none, bs2) =>
        .ok { s with
                blocking := some bs2
                program_counter := (s.program_counter + 65534) % 65536 }
    | none =>
      .ok { s with
              blocking := some ⟨s.keys⟩
              program_counter := (s.program_counter + 65534) % 65536 }
  else .ok s

/-- Fragment of fn execute: the FX29 / FX33 / FX55 / FX65 if-else chain. -/
def execF4 (s : Processor) (n1 n2 n3 : Nat) : ExecResult :=
  if n2 = 2 ∧ n3 = 9 then
    match s.register n1 with
    | .error e => .err e s
    | .ok value =>
      if value < 16 then
        .ok { s with index_register := FONT_START_ADDR + value * 5 }
      else .ok s
  else if n2 = 3 ∧ n3 = 3 then
    match s.register n1 with
    | .error e => .err e s
    | .ok value =>
      let digit1 := value / 100
      match vecSet s.memory s.index_register digit1 with
      | none => .crash
      | some m1 =>
        let value2 := value % 100
        let digit2 := value2 / 10
        match vecSet m1 (s.index_register + 1) digit2 with
        | none => .crash
        | some m2 =>
          let digit3 := value2 % 10
          match vecSet m2 (s.index_register + 2) digit3 with
          | none => .crash
          | some m3 => .ok { s with memory := m3 }
  else if n2 = 5 ∧ n3 = 5 then
    match fx55Loop s (n1 + 1) 0 with
    | .crash => .crash
    | .err e s2 => .err e s2
    | .ok s2 =>
      if s2.settings.inc_i_in_fx55_and_fx65 then
        .ok { s2 with index_register := (s2.index_register + n1 + 1) % 65536 }
      else .ok s2
  else if n2 = 6 ∧ n3 = 5 then
    match fx65Loop s (n1 + 1) 0 with
    | .crash => .crash
    | .err e s2 => .err e s2
    | .ok s2 =>
      if s2.settings.inc_i_in_fx55_and_fx65 then
        .ok { s2 with index_register := (s2.index_register + n1 + 1) % 65536 }
      else .ok s2
  else .ok s

/-- Processor::execute: decode the four nibbles and act on the instruction.
The structure mirrors the if-else chain of the source; the 0xF family is the
sequential composition of its four separate if statements. -/
def execute (rnd : Nat) (s : Processor) (instruction : Nat) : ExecResult :=
  let n0 := nibble instruction 0
  let n1 := nibble instruction 1
  let n2 := nibble instruction 2
  let n3 := nibble instruction 3
  if instruction = 0x00e0 then
    .ok { s with display := List.replicate (DISPLAY_WIDTH * DISPLAY_HEIGHT) false }
  else if instruction = 0x00ee then
    match s.stack with
    | [] => .err .StackUnderflow s
    | address :: rest => .ok { s with program_counter := address, stack := rest }
  else if n0 = 1 then
    .ok { s with program_counter := instruction % 4096 }
  else if n0 = 2 then
    .ok { s with
            stack := s.program_counter :: s.stack
            program_counter := instruction % 4096 }
  else if n0 = 3 then
    if s.variable_registers n1 = instruction % 256 then
      .ok { s with program_counter := (s.program_counter + 2) % 65536 }
    else .ok s
  else if n0 = 4 then
    if s.variable_registers n1 ≠ instruction % 256 then
      .ok { s with program_counter := (s.program_counter + 2) % 65536 }
    else .ok s
  else if n0 = 5 then
    if s.variable_registers n1 = s.variable_registers n2 then
      .ok { s with program_counter := (s.program_counter + 2) % 65536 }
    else .ok s
  else if n0 = 6 then
    .ok { s with variable_registers := updateReg s.variable_registers n1 (instruction % 256) }
  else if n0 = 7 then
    .ok { s with
            variable_registers :=
              updateReg s.variable_registers n1
                ((s.variable_registers n1 + instruction % 256) % 256) }
  else if n0 = 8 then
    match s.register n1 with
    | .error e => .err e s
    | .ok vx =>
    match s.register n2 with
    | .error e => .err e s
    | .ok vy =>
      if n3 = 0 then
        match s.setRegister n1 vy with
        | .error e => .err e s
        | .ok s2 => .ok s2
      else if n3 = 1 then
        match s.setRegister n1 (vx ||| vy) with
        | .error e => .err e s
        | .ok s2 => .ok s2
      else if n3 = 2 then
        match s.setRegister n1 (vx &&& vy) with
        | .error e => .err e s
        | .ok s2 => .ok s2
      else if n3 = 3 then
        match s.setRegister n1 (vx ^^^ vy) with
        | .error e => .err e s
        | .ok s2 => .ok s2
      else if n3 = 4 then
        match s.setRegister n1 ((vx + vy) % 256) with
        | .error e => .err e s
        | .ok s2 => .ok (s2.setFlagRegister (if 256 ≤ vx + vy then 1 else 0))
      else if n3 = 5 then
        match s.setRegister n1 ((vx + 256 - vy) % 256) with
        | .error e => .err e s
        | .ok s2 => .ok (s2.setFlagRegister (if vx < vy then 0 else 1))
      else if n3 = 6 then
        let r1 : ExecResult :=
          if s.settings.use_vy_in_8xy6 then
            match s.setRegister n1 vy with
            | .error e => .err e s
            | .ok s2 => .ok s2
          else .ok s
        r1.seq fun s2 =>
          match s2.register n1 with
          | .error e => .err e s2
          | .ok value =>
            let lowest_bit := value % 2
            let result := value / 2
            let s3 := s2.setFlagRegister lowest_bit
            match s3.setRegister n1 result with
            | .error e => .err e s3
            | .ok s4 => .ok s4
      else if n3 = 7 then
        match s.setRegister n1 ((vy + 256 - vx) % 256) with
        | .error e => .err e s
        | .ok s2 => .ok (s2.setFlagRegister (if vy < vx then 0 else 1))
      else if n3 = 0xE then
        let r1 : ExecResult :=
          if s.settings.use_vy_in_8xye then
            match s.setRegister n1 vy with
            | .error e => .err e s
            | .ok s2 => .ok s2
          else .ok s
        r1.seq fun s2 =>
          match s2.register n1 with
          | .error e => .err e s2
          | .ok value =>
            let flag := (value &&& 128) >>> 7
            let result := value * 2 % 256
            let s3 := s2.setFlagRegister flag
            match s3.setRegister n1 result with
            | .error e => .err e s3
            | .ok s4 => .ok s4
      else
        .ok s
  else if n0 = 9 then
    if s.variable_registers n1 ≠ s.variable_registers n2 then
      .ok { s with program_counter := (s.program_counter + 2) % 65536 }
    else .ok s
  else if n0 = 0xA then
    .ok { s with index_register := instruction % 4096 }
  else if n0 = 0xB then
    let value := instruction % 4096
    if s.settings.use_bxnn_instead_bnnn then
      match s.register n1 with
      | .error e => .err e s
      | .ok vx => .ok { s with program_counter := (value + vx) % 65536 }
    else
      .ok { s with program_counter := (value + s.variable_registers 0) % 65536 }
  else if n0 = 0xC then
    match s.setRegister n1 (rnd % 256 &&& instruction % 256) with
    | .error e => .err e s
    | .ok s2 => .ok s2
  else if n0 = 0xD then
    let dx0 := s.variable_registers n1
    let dy0 := s.variable_registers n2
    let rows := n3
    let dx := dx0 % DISPLAY_WIDTH
    let dx_orig := dx
    let dy := dy0 % DISPLAY_HEIGHT
    let s1 := { s with variable_registers := updateReg s.variable_registers 0xF 0 }
    match drawRows s1 rows 0 dx_orig dx dy with
    | none => .crash
    | some s2 => .ok s2
  else if n0 = 0xE then
    if n2 = 9 ∧ n3 = 0xE then
      match s.register n1 with
      | .error e => .err e s
      | .ok value =>
        match Key.tryFrom value with
        | some key =>
          if key ∈ s.keys then
            .ok { s with program_counter := (s.program_counter + 2) % 65536 }
          else .ok s
        | none => .ok s
    else if n2 = 0xA ∧ n3 = 1 then
      match s.register n1 with
      | .error e => .err e s
      | .ok value =>
        match Key.tryFrom value with
        | some key =>
          if key ∉ s.keys then
            .ok { s with program_counter := (s.program_counter + 2) % 65536 }
          else .ok s
        | none => .ok s
    else .ok s
  else if n0 = 0xF then
    (((execF1 s n1 n2 n3).seq fun s => execF2 s n1 n2 n3).seq fun s =>
        execF3 s n1 n2 n3).seq fun s =>
      execF4 s n1 n2 n3
  else
    .err (.UnknownInstruction instruction) s

/-- Processor::step: fetch the big-endian word at the program counter
(direct Vec indexing, panics out of bounds), advance the counter by 2, then
execute, wrapping execution errors with the faulting address and word. -/
def step (rnd : Nat) (s : Processor) : StepResult :=
  let address := s.program_counter
  match s.memory[s.program_counter]? with
  | none => .crash
  | some b0 =>
  match s.memory[s.program_counter + 1]? with
  | none => .crash
  | some b1 =>
    let instruction := b0 * 256 + b1
    let s1 := { s with program_counter := (s.program_counter + 2) % 65536 }
    match execute rnd s1 instruction with
    | .crash => .crash
    | .err e s2 => .err (.Execution address instruction e) s2
    | .ok s2 => .ok s2

/-- The big-endian instruction word that step will fetch at the current
program counter (with 0 for out-of-range bytes); used only to state
preconditions about the upcoming instruction. -/
def fetched (s : Processor) : Nat :=
  s.memory.getD s.program_counter 0 * 256 + s.memory.getD (s.program_counter + 1) 0

/-- Fresh machine with the arithmetic-family word 0x8128 placed at the
program counter. -/
def stateWith8128 : Processor :=
  { Processor.new with memory := copySlice Processor.new.memory 0x200 [0x81, 0x28] }

/-- Register file with V1 = 200 and V2 = 100, on a fresh machine. -/
def stateC8 : Processor :=
  { Processor.new with
      variable_registers := fun j => if j = 1 then 200 else if j = 2 then 100 else 0 }

/-- Machine with key 5 pressed, V2 = 5, and V3 = 60. -/
def stateC9 : Processor :=
  { Processor.new with
      keys := [(5 : Fin 16)]
      variable_registers := fun j => if j = 2 then 5 else if j = 3 then 60 else 0 }

/-- Fresh memory with the key-wait instruction F10A at 0x200. -/
def memC6 : List Nat := copySlice Processor.new.memory 0x200 [0xF1, 0x0A]

/-- Specification helper: the clipped screen rectangle covered by a DXYN
draw; the start coordinates wrap once (VX mod 64, VY mod 32) and the sprite
extends at most 8 columns and n rows, clipped at the display edges by the
surrounding bounds px < 64, py < 32. -/
abbrev spriteRect (s : Processor) (x y n px py : Nat) : Prop :=
  s.variable_registers x % 64 ≤ px ∧ px < s.variable_registers x % 64 + 8 ∧
  s.variable_registers y % 32 ≤ py ∧ py < s.variable_registers y % 32 + n

/-- Specification helper: the sprite bit (0 or 1) that a DXYN draw XORs
onto screen position (px, py). -/
def spriteBit (s : Processor) (x y px py : Nat) : Nat :=
  s.memory.getD (s.index_register + (py - s.variable_registers y % 32)) 0 /
    2 ^ (7 - (px - s.variable_registers x % 64)) % 2

/-! Basic lemmas about the embedding. -/

theorem nibble_lt (v i : Nat) : nibble v i < 16 := by
  rcases i with _ | _ | _ | _ | i
  · exact Nat.mod_lt _ (by omega)
  · exact Nat.mod_lt _ (by omega)
  · exact Nat.mod_lt _ (by omega)
  · exact Nat.mod_lt _ (by omega)
  · show (0 : Nat) < 16
    omega

theorem nibble0_decode {a b c d : Nat} (ha : a < 16) (hb : b < 16) (hc : c < 16)
    (hd : d < 16) : nibble (a * 4096 + b * 256 + c * 16 + d) 0 = a := by
  show (a * 4096 + b * 256 + c * 16 + d) / 4096 % 16 = a
  omega

theorem nibble1_decode {a b c d : Nat} (ha : a < 16) (hb : b < 16) (hc : c < 16)
    (hd : d < 16) : nibble (a * 4096 + b * 256 + c * 16 + d) 1 = b := by
  show (a * 4096 + b * 256 + c * 16 + d) / 256 % 16 = b
  omega

theorem nibble2_decode {a b c d : Nat} (ha : a < 16) (hb : b < 16) (hc : c < 16)
    (hd : d < 16) : nibble (a * 4096 + b * 256 + c * 16 + d) 2 = c := by
  show (a * 4096 + b * 256 + c * 16 + d) / 16 % 16 = c
  omega

theorem nibble3_decode {a b c d : Nat} (ha : a < 16) (hb : b < 16) (hc : c < 16)
    (hd : d < 16) : nibble (a * 4096 + b * 256 + c * 16 + d) 3 = d := by
  show (a * 4096 + b * 256 + c * 16 + d) % 16 = d
  omega

theorem register_eq (s : Processor) {i : Nat} (h : i < 16) :
    s.register i = .ok (s.variable_registers i) := by
  simp [Processor.register, h]

theorem setRegister_eq (s : Processor) {i : Nat} (v : Nat) (h : i < 16) :
    s.setRegister i v =
      .ok { s with variable_registers := updateReg s.variable_registers i v } := by
  simp [Processor.setRegister, h]

theorem updateReg_self (regs : Nat → Nat) (i v : Nat) : updateReg regs i v i = v := by
  simp [updateReg]

theorem updateReg_ne (regs : Nat → Nat) {i j : Nat} (v : Nat) (h : j ≠ i) :
    updateReg regs i v j = regs j := by
  simp [updateReg, h]

theorem copySlice_length (mem : List Nat) (start : Nat) (data : List Nat)
    (h : start + data.length ≤ mem.length) :
    (copySlice mem start data).length = mem.length := by
  simp [copySlice]
  omega

theorem copySlice_getElem? (mem : List Nat) (start : Nat) (data : List Nat) (i : Nat)
    (h : start + data.length ≤ mem.length) :
    (copySlice mem start data)[i]? =
      if i < start then mem[i]?
      else if i < start + data.length then data[i - start]?
      else mem[i]? := by
  unfold copySlice
  have hts : (mem.take start).length = start := by
    simp
    omega
  have hl : (mem.take start ++ data).length = start + data.length := by
    simp
    omega
  rcases Nat.lt_or_ge i start with hi | hi
  · rw [List.getElem?_append_left (by rw [hl]; omega),
      List.getElem?_append_left (by rw [hts]; omega), List.getElem?_take_of_lt hi,
      if_pos hi]
  · rcases Nat.lt_or_ge i (start + data.length) with hi2 | hi2
    · rw [List.getElem?_append_left (by rw [hl]; omega),
        List.getElem?_append_right (by rw [hts]; omega), hts, if_neg (by omega),
        if_pos (by omega)]
    · rw [List.getElem?_append_right (by rw [hl]; omega), hl, List.getElem?_drop,
        if_neg (by omega), if_neg (by omega)]
      congr 1
      omega

theorem FONT_length : FONT.length = 80 := rfl

theorem new_memory_eq :
    Processor.new.memory = copySlice (List.replicate 4096 0) 512 FONT := rfl

theorem fontSlice_length :
    (copySlice (List.replicate 4096 0) 512 FONT).length = 4096 := by
  rw [copySlice_length, List.length_replicate]
  rw [FONT_length, List.length_replicate]
  omega

theorem new_memory_length : Processor.new.memory.length = 4096 := by
  rw [new_memory_eq]
  exact fontSlice_length

theorem fontSlice_getElem? (i : Nat) :
    (copySlice (List.replicate 4096 0) 512 FONT)[i]? =
      if i < 512 then some 0
      else if i < 592 then FONT[i - 512]?
      else if i < 4096 then some 0 else none := by
  rw [copySlice_getElem? _ _ _ _ (by rw [FONT_length, List.length_replicate]; omega),
    FONT_length, List.getElem?_replicate]
  split_ifs <;> first | rfl | omega

theorem new_memory_getElem? (i : Nat) :
    Processor.new.memory[i]? =
      if i < 512 then some 0
      else if i < 592 then FONT[i - 512]?
      else if i < 4096 then some 0 else none := by
  rw [new_memory_eq]
  exact fontSlice_getElem? i

/-! Claim C7. -/

/-- C7: load_program accepts every ROM of at most 4096 - 0x200 = 3584 bytes
(the Ok result), and for every larger ROM returns the RomTooLarge loading
error with the entire prior machine state untouched (the returned processor
is the unmodified receiver). -/
theorem C7_load_size (s : Processor) (rom : List Nat) :
    (rom.length ≤ 3584 → (s.load_program rom).2 = none) ∧
    (rom.length > 3584 →
      s.load_program rom = (s, some (.Loading .RomTooLarge))) := by
  constructor
  · intro h
    simp only [Processor.load_program, MEMORY_SIZE, ROM_START_ADDR]
    rw [if_neg (by omega)]
  · intro h
    simp only [Processor.load_program, MEMORY_SIZE, ROM_START_ADDR]
    rw [if_pos (by omega)]

/-- C7 witness: a 3584-byte ROM is accepted; a 3585-byte ROM is rejected
with RomTooLarge and the machine is left exactly as it was. -/
theorem C7_load_size_witness :
    (Processor.new.load_program (List.replicate 3584 0)).2 = none ∧
    Processor.new.load_program (List.replicate 3585 0) =
      (Processor.new, some (.Loading .RomTooLarge)) :=
  ⟨(C7_load_size Processor.new (List.replicate 3584 0)).1
      (by rw [List.length_replicate]),
   (C7_load_size Processor.new (List.replicate 3585 0)).2
      (by rw [List.length_replicate]; omega)⟩

/-! Claim C3. -/

/-- C3: code-bug exhibit. The claim asserts the 16 font glyphs are present
at the fixed font offset and that FX29 points the index register at glyph
data. In the code, Processor::new (and load_program) copy the font to
ROM_START_ADDR = 0x200 instead of FONT_START_ADDR = 0x50 (contradicting the
comment directly above the copy), while FX29 computes FONT_START_ADDR + 5v:
on a fresh machine memory[0x50] is 0, the first glyph byte 0xF0 sits at
0x200, and executing F029 with register 0 = 0 points the index register at
the zeroed 0x50; after loading an 80-byte ROM of ones the glyphs are gone
entirely. -/
theorem C3_font_not_at_font_offset :
    Processor.new.memory[FONT_START_ADDR]? = some 0 ∧
    Processor.new.memory[ROM_START_ADDR]? = some 0xF0 ∧
    FONT[0]? = some 0xF0 ∧
    execute 0 Processor.new 0xF029 =
      .ok { Processor.new with index_register := FONT_START_ADDR } ∧
    (Processor.new.load_program (List.replicate 80 1)).1.memory[FONT_START_ADDR]? =
      some 0 ∧
    (Processor.new.load_program (List.replicate 80 1)).1.memory[ROM_START_ADDR]? =
      some 1 := by
  have hload : (Processor.new.load_program (List.replicate 80 1)).1.memory =
      copySlice (copySlice (List.replicate 4096 0) 512 FONT) 512
        (List.replicate 80 1) := by
    simp only [Processor.load_program, MEMORY_SIZE, ROM_START_ADDR]
    rw [if_neg (by rw [List.length_replicate]; omega)]
  have hb : (512 : Nat) + (List.replicate 80 (1 : Nat)).length ≤
      (copySlice (List.replicate 4096 0) 512 FONT).length := by
    rw [List.length_replicate, fontSlice_length]
    omega
  refine ⟨?_, ?_, rfl, rfl, ?_, ?_⟩
  · rw [new_memory_getElem?]
    decide
  · rw [new_memory_getElem?]
    decide
  · rw [hload, copySlice_getElem? _ _ _ _ hb, List.length_replicate,
      fontSlice_getElem?]
    decide
  · rw [hload, copySlice_getElem? _ _ _ _ hb, List.length_replicate]
    decide

/-! Claim C4. -/

/-- C4 counterexample: the claim says a successful load clears the key-wait
blocking state and clears memory outside the font and program regions.
Loading the empty ROM into a machine that is awaiting a key release leaves
the blocking state in place, and leaves the first font byte 0xF0 at address
0x200, which is outside both the font region (0x50..0x9F) and the (empty)
program region. -/
theorem C4_load_reset_counterexample :
    (({ Processor.new with blocking := some ⟨[]⟩ } : Processor).load_program
        []).2 = none ∧
    (({ Processor.new with blocking := some ⟨[]⟩ } : Processor).load_program
        []).1.blocking = some ⟨[]⟩ ∧
    (({ Processor.new with blocking := some ⟨[]⟩ } : Processor).load_program
        []).1.memory[0x200]? = some 0xF0 := by
  have hload : ∀ s : Processor, (s.load_program []).1.memory =
      copySlice (copySlice (List.replicate 4096 0) 512 FONT) 512 [] := by
    intro s
    simp only [Processor.load_program, MEMORY_SIZE, ROM_START_ADDR]
    rw [if_neg (by simp)]
  have hb : (512 : Nat) + ([] : List Nat).length ≤
      (copySlice (List.replicate 4096 0) 512 FONT).length := by
    rw [fontSlice_length]
    simp
  refine ⟨?_, ?_, ?_⟩
  · simp only [Processor.load_program, MEMORY_SIZE, ROM_START_ADDR]
    rw [if_neg (by simp)]
  · simp only [Processor.load_program, MEMORY_SIZE, ROM_START_ADDR]
    rw [if_neg (by simp)]
  · rw [hload, copySlice_getElem? _ _ _ _ hb, fontSlice_getElem?]
    decide

/-- C4 amended: a successful load_program zeroes the general registers, the
index register and both timers, empties the stack, clears the framebuffer,
sets the program counter to 0x200, and rewrites memory as: zeros below
0x200, the ROM bytes from 0x200, the tail of the (misplaced) font table
between the end of the ROM and 0x250, and zeros above both; the quirk
settings, the key-wait blocking state, and the pressed-key set are all left
unchanged by the load. -/
theorem C4_load_reset_amended (s : Processor) (rom : List Nat)
    (h : rom.length ≤ 3584) :
    (s.load_program rom).2 = none ∧
    (s.load_program rom).1.stack = [] ∧
    (s.load_program rom).1.program_counter = ROM_START_ADDR ∧
    (s.load_program rom).1.display = List.replicate 2048 false ∧
    (s.load_program rom).1.index_register = 0 ∧
    (∀ j, (s.load_program rom).1.variable_registers j = 0) ∧
    (s.load_program rom).1.delay_timer = 0 ∧
    (s.load_program rom).1.sound_timer = 0 ∧
    (s.load_program rom).1.settings = s.settings ∧
    (s.load_program rom).1.blocking = s.blocking ∧
    (s.load_program rom).1.keys = s.keys ∧
    (∀ a, a < ROM_START_ADDR → (s.load_program rom).1.memory[a]? = some 0) ∧
    (∀ a, a < rom.length →
      (s.load_program rom).1.memory[ROM_START_ADDR + a]? = rom[a]?) ∧
    (∀ a, rom.length ≤ a → a < 80 →
      (s.load_program rom).1.memory[ROM_START_ADDR + a]? = FONT[a]?) ∧
    (∀ a, ROM_START_ADDR + max rom.length 80 ≤ a → a < MEMORY_SIZE →
      (s.load_program rom).1.memory[a]? = some 0) := by
  have hfont : FONT.length = 80 := rfl
  have hrep : (List.replicate 4096 (0 : Nat)).length = 4096 := by
    rw [List.length_replicate]
  have hb1 : (512 : Nat) + FONT.length ≤ (List.replicate 4096 (0 : Nat)).length := by
    rw [hfont, hrep]
    omega
  have hlen1 : (copySlice (List.replicate 4096 0) 512 FONT).length = 4096 := by
    rw [copySlice_length _ _ _ hb1, hrep]
  have hb2 : (512 : Nat) + rom.length ≤
      (copySlice (List.replicate 4096 0) 512 FONT).length := by
    rw [hlen1]
    omega
  simp only [Processor.load_program, MEMORY_SIZE, ROM_START_ADDR, DISPLAY_WIDTH,
    DISPLAY_HEIGHT]
  rw [if_neg (by omega)]
  refine ⟨rfl, rfl, rfl, rfl, rfl, fun j => rfl, rfl, rfl, rfl, rfl, rfl, ?_, ?_, ?_, ?_⟩
  · intro a ha
    rw [copySlice_getElem? _ _ _ _ hb2, if_pos (by omega),
      copySlice_getElem? _ _ _ _ hb1, if_pos (by omega),
      List.getElem?_replicate_of_lt (by omega)]
  · intro a ha
    rw [copySlice_getElem? _ _ _ _ hb2, if_neg (by omega), if_pos (by omega)]
    congr 1
    omega
  · intro a ha1 ha2
    rw [copySlice_getElem? _ _ _ _ hb2, if_neg (by omega), if_neg (by omega),
      copySlice_getElem? _ _ _ _ hb1, if_neg (by omega), if_pos (by rw [hfont]; omega)]
    congr 1
    omega
  · intro a ha1 ha2
    rw [copySlice_getElem? _ _ _ _ hb2, if_neg (by omega), if_neg (by omega),
      copySlice_getElem? _ _ _ _ hb1, if_neg (by omega), if_neg (by rw [hfont]; omega),
      List.getElem?_replicate_of_lt (by omega)]

/-- C4 amended witness: loading a 2-byte ROM into a blocked fresh machine. -/
theorem C4_load_reset_amended_witness :
    (({ Processor.new with blocking := some ⟨[⟨3, by decide⟩]⟩ } : Processor).load_program
        [0xAB, 0xCD]).2 = none ∧
    (({ Processor.new with blocking := some ⟨[⟨3, by decide⟩]⟩ } : Processor).load_program
        [0xAB, 0xCD]).1.blocking = some ⟨[⟨3, by decide⟩]⟩ := by
  have h := C4_load_reset_amended
    { Processor.new with blocking := some ⟨[⟨3, by decide⟩]⟩ } [0xAB, 0xCD]
    (by simp)
  exact ⟨h.1, by rw [h.2.2.2.2.2.2.2.2.2.1]⟩

/-! Claim C2. -/

/-- C2 counterexample: the claim says every unmatched word, including
0x8128 (arithmetic family, last nibble 8), yields an unknown-instruction
error. Stepping a machine with 0x8128 at the program counter returns Ok:
the 0x8 family simply falls through for last nibbles 8..D and the step
succeeds as a no-op with the program counter advanced. -/
theorem C2_unknown_instruction_counterexample :
    step 0 stateWith8128 = .ok { stateWith8128 with program_counter := 0x202 } := by
  have hb : (512 : Nat) + ([0x81, 0x28] : List Nat).length ≤
      Processor.new.memory.length := by
    rw [new_memory_length]
    simp
  have h0 : stateWith8128.memory[(512 : Nat)]? = some 0x81 := by
    show (copySlice Processor.new.memory 0x200 [0x81, 0x28])[(512 : Nat)]? = some 0x81
    rw [copySlice_getElem? _ _ _ _ hb]
    decide
  have h1 : stateWith8128.memory[(512 : Nat) + 1]? = some 0x28 := by
    show (copySlice Processor.new.memory 0x200 [0x81, 0x28])[(512 : Nat) + 1]? =
      some 0x28
    rw [copySlice_getElem? _ _ _ _ hb]
    decide
  have hpc : stateWith8128.program_counter = 512 := rfl
  simp only [step, hpc, h0, h1]
  rfl

/-- C2 amended: the unknown-instruction error is raised exactly for words
with top nibble 0 other than 00E0/00EE; unmatched words inside the other
families are silent no-ops returning Ok with the state unchanged, shown
here for the arithmetic family with last nibble 8..D, the 0xE family with a
low byte other than 9E/A1, and the 0xF family with an undefined low byte. -/
theorem C2_unknown_instruction_amended (rnd : Nat) (s : Processor) (instr : Nat) :
    (nibble instr 0 = 0 → instr ≠ 0x00E0 → instr ≠ 0x00EE →
      execute rnd s instr = .err (.UnknownInstruction instr) s) ∧
    (nibble instr 0 = 8 → 8 ≤ nibble instr 3 → nibble instr 3 ≤ 0xD →
      execute rnd s instr = .ok s) ∧
    (nibble instr 0 = 0xE → ¬(nibble instr 2 = 9 ∧ nibble instr 3 = 0xE) →
      ¬(nibble instr 2 = 0xA ∧ nibble instr 3 = 1) →
      execute rnd s instr = .ok s) ∧
    (nibble instr 0 = 0xF →
      ¬(nibble instr 2 = 0 ∧ nibble instr 3 = 7) →
      ¬(nibble instr 2 = 1 ∧ nibble instr 3 = 5) →
      ¬(nibble instr 2 = 1 ∧ nibble instr 3 = 8) →
      ¬(nibble instr 2 = 1 ∧ nibble instr 3 = 0xE) →
      ¬(nibble instr 2 = 0 ∧ nibble instr 3 = 0xA) →
      ¬(nibble instr 2 = 2 ∧ nibble instr 3 = 9) →
      ¬(nibble instr 2 = 3 ∧ nibble instr 3 = 3) →
      ¬(nibble instr 2 = 5 ∧ nibble instr 3 = 5) →
      ¬(nibble instr 2 = 6 ∧ nibble instr 3 = 5) →
      execute rnd s instr = .ok s) := by
  refine ⟨?_, ?_, ?_, ?_⟩
  · intro h0 he0 hee
    simp [execute, h0, he0, hee]
  · intro h0 h8 h13
    have he0 : instr ≠ 0x00E0 := fun hh => absurd (hh ▸ h0) (by decide)
    have hee : instr ≠ 0x00EE := fun hh => absurd (hh ▸ h0) (by decide)
    have e1 := register_eq s (nibble_lt instr 1)
    have e2 := register_eq s (nibble_lt instr 2)
    have d0 : nibble instr 3 ≠ 0 := by omega
    have d1 : nibble instr 3 ≠ 1 := by omega
    have d2 : nibble instr 3 ≠ 2 := by omega
    have d3 : nibble instr 3 ≠ 3 := by omega
    have d4 : nibble instr 3 ≠ 4 := by omega
    have d5 : nibble instr 3 ≠ 5 := by omega
    have d6 : nibble instr 3 ≠ 6 := by omega
    have d7 : nibble instr 3 ≠ 7 := by omega
    have dE : nibble instr 3 ≠ 0xE := by omega
    simp [execute, h0, he0, hee, e1, e2, d0, d1, d2, d3, d4, d5, d6, d7, dE]
  · intro h0 h9e ha1
    have he0 : instr ≠ 0x00E0 := fun hh => absurd (hh ▸ h0) (by decide)
    have hee : instr ≠ 0x00EE := fun hh => absurd (hh ▸ h0) (by decide)
    simp [execute, h0, he0, hee, h9e, ha1]
  · intro h0 hf1 hf2 hf3 hf4 hf5 hf6 hf7 hf8 hf9
    have he0 : instr ≠ 0x00E0 := fun hh => absurd (hh ▸ h0) (by decide)
    have hee : instr ≠ 0x00EE := fun hh => absurd (hh ▸ h0) (by decide)
    simp [execute, execF1, execF2, execF3, execF4, ExecResult.seq, h0, he0, hee,
      hf1, hf2, hf3, hf4, hf5, hf6, hf7, hf8, hf9]

/-- C2 amended witness: concrete words from each family. -/
theorem C2_unknown_instruction_amended_witness :
    execute 0 Processor.new 0x0123 = .err (.UnknownInstruction 0x0123) Processor.new ∧
    execute 0 Processor.new 0x8128 = .ok Processor.new ∧
    execute 0 Processor.new 0xE145 = .ok Processor.new ∧
    execute 0 Processor.new 0xF1FF = .ok Processor.new :=
  ⟨(C2_unknown_instruction_amended 0 Processor.new 0x0123).1 (by decide) (by decide)
      (by decide),
   (C2_unknown_instruction_amended 0 Processor.new 0x8128).2.1 (by decide) (by decide)
      (by decide),
   (C2_unknown_instruction_amended 0 Processor.new 0xE145).2.2.1 (by decide)
      (by decide) (by decide),
   (C2_unknown_instruction_amended 0 Processor.new 0xF1FF).2.2.2 (by decide)
      (by decide) (by decide) (by decide) (by decide) (by decide) (by decide)
      (by decide) (by decide) (by decide)⟩

/-! Claim C10. -/

/-- C10: the add-immediate 7XNN with X different from 15 sets VX to
(VX + NN) mod 256 and changes nothing else: every other register including
the flag register V15, memory, stack, program counter, display, index
register, timers, blocking state, keys, settings and program data are all
unchanged, so unsigned overflow in 7XNN never touches the flag register. -/
theorem C10_add_immediate_no_flag (rnd x nn : Nat) (s : Processor)
    (hx : x < 16) (hx15 : x ≠ 15) (hnn : nn < 256) :
    ∃ s2, execute rnd s (0x7000 + x * 256 + nn) = .ok s2 ∧
      s2.variable_registers x = (s.variable_registers x + nn) % 256 ∧
      s2.variable_registers 15 = s.variable_registers 15 ∧
      (∀ j, j ≠ x → s2.variable_registers j = s.variable_registers j) ∧
      s2.memory = s.memory ∧ s2.stack = s.stack ∧
      s2.program_counter = s.program_counter ∧ s2.display = s.display ∧
      s2.index_register = s.index_register ∧ s2.delay_timer = s.delay_timer ∧
      s2.sound_timer = s.sound_timer ∧ s2.blocking = s.blocking ∧
      s2.keys = s.keys ∧ s2.settings = s.settings ∧
      s2.program_data = s.program_data := by
  have h0 : nibble (0x7000 + x * 256 + nn) 0 = 7 := by
    show (0x7000 + x * 256 + nn) / 4096 % 16 = 7
    omega
  have h1 : nibble (0x7000 + x * 256 + nn) 1 = x := by
    show (0x7000 + x * 256 + nn) / 256 % 16 = x
    omega
  have hmod : (0x7000 + x * 256 + nn) % 256 = nn := by omega
  have he0 : (0x7000 + x * 256 + nn) ≠ 0x00E0 := by omega
  have hee : (0x7000 + x * 256 + nn) ≠ 0x00EE := by omega
  refine ⟨{ s with variable_registers := updateReg s.variable_registers x ((s.variable_registers x + nn) % 256) }, ?_, ?_, ?_, ?_, rfl, rfl, rfl, rfl, rfl, rfl, rfl, rfl, rfl, rfl, rfl⟩
  · simp [execute, h0, h1, hmod, he0, hee]
  · exact updateReg_self _ _ _
  · exact updateReg_ne _ _ (by omega)
  · intro j hj
    exact updateReg_ne _ _ hj

/-- C10 witness: on a fresh machine, 70FF (add 255 to V0) yields V0 = 255
and leaves the flag register at 0. -/
theorem C10_add_immediate_no_flag_witness :
    ∃ s2, execute 0 Processor.new (0x7000 + 0 * 256 + 255) = .ok s2 ∧
      s2.variable_registers 0 = 255 ∧ s2.variable_registers 15 = 0 := by
  obtain ⟨s2, he, hv, h15, -⟩ :=
    C10_add_immediate_no_flag 0 0 255 Processor.new (by decide) (by decide) (by decide)
  refine ⟨s2, he, ?_, ?_⟩
  · rw [hv]
    decide
  · rw [h15]
    decide

/-! Claim C8. -/

/-- C8: the three flag-producing arithmetic instructions. 8XY4 stores
(VX + VY) mod 256 in VX and then writes 1 to the flag register when the sum
reaches 256 (unsigned overflow), else 0; 8XY5 stores VX - VY mod 256 and
writes 1 exactly when VX is at least VY (no borrow); 8XY7 stores VY - VX
mod 256 and writes 1 exactly when VY is at least VX. In each case the flag
write happens after the result write, so register 15 always ends up holding
the flag, also when X = 15. -/
theorem C8_arith_flags (rnd x y : Nat) (s : Processor) (hx : x < 16)
    (hy : y < 16) (hvx : s.variable_registers x < 256)
    (hvy : s.variable_registers y < 256) :
    (∃ s2, execute rnd s (0x8000 + x * 256 + y * 16 + 4) = .ok s2 ∧
      s2.variable_registers 15 =
        (if 256 ≤ s.variable_registers x + s.variable_registers y then 1 else 0) ∧
      (x ≠ 15 → s2.variable_registers x =
        (s.variable_registers x + s.variable_registers y) % 256) ∧
      (∀ j, j ≠ x → j ≠ 15 → s2.variable_registers j = s.variable_registers j)) ∧
    (∃ s2, execute rnd s (0x8000 + x * 256 + y * 16 + 5) = .ok s2 ∧
      s2.variable_registers 15 =
        (if s.variable_registers x < s.variable_registers y then 0 else 1) ∧
      (x ≠ 15 → s2.variable_registers x =
        (s.variable_registers x + 256 - s.variable_registers y) % 256) ∧
      (∀ j, j ≠ x → j ≠ 15 → s2.variable_registers j = s.variable_registers j)) ∧
    (∃ s2, execute rnd s (0x8000 + x * 256 + y * 16 + 7) = .ok s2 ∧
      s2.variable_registers 15 =
        (if s.variable_registers y < s.variable_registers x then 0 else 1) ∧
      (x ≠ 15 → s2.variable_registers x =
        (s.variable_registers y + 256 - s.variable_registers x) % 256) ∧
      (∀ j, j ≠ x → j ≠ 15 → s2.variable_registers j = s.variable_registers j)) := by
  have d4 : (4 : Nat) < 16 := by omega
  have d5 : (5 : Nat) < 16 := by omega
  have d7 : (7 : Nat) < 16 := by omega
  have h8 : (8 : Nat) < 16 := by omega
  refine ⟨⟨{ s with variable_registers := updateReg (updateReg s.variable_registers x ((s.variable_registers x + s.variable_registers y) % 256)) 15 (if 256 ≤ s.variable_registers x + s.variable_registers y then 1 else 0) }, ?_, ?_, ?_, ?_⟩, ⟨{ s with variable_registers := updateReg (updateReg s.variable_registers x ((s.variable_registers x + 256 - s.variable_registers y) % 256)) 15 (if s.variable_registers x < s.variable_registers y then 0 else 1) }, ?_, ?_, ?_, ?_⟩, ⟨{ s with variable_registers := updateReg (updateReg s.variable_registers x ((s.variable_registers y + 256 - s.variable_registers x) % 256)) 15 (if s.variable_registers y < s.variable_registers x then 0 else 1) }, ?_, ?_, ?_, ?_⟩⟩
  · simp [execute, nibble0_decode h8 hx hy d4, nibble1_decode h8 hx hy d4,
      nibble2_decode h8 hx hy d4, nibble3_decode h8 hx hy d4,
      show (0x8000 + x * 256 + y * 16 + 4) ≠ 0x00E0 by omega,
      show (0x8000 + x * 256 + y * 16 + 4) ≠ 0x00EE by omega,
      register_eq s hx, register_eq s hy, setRegister_eq, hx, hy,
      Processor.setFlagRegister, FLAG_REGISTER_INDEX]
  · simp [updateReg]
  · intro hx15
    simp [updateReg, hx15]
  · intro j hjx hj15
    simp [updateReg, hjx, hj15]
  · simp [execute, nibble0_decode h8 hx hy d5, nibble1_decode h8 hx hy d5,
      nibble2_decode h8 hx hy d5, nibble3_decode h8 hx hy d5,
      show (0x8000 + x * 256 + y * 16 + 5) ≠ 0x00E0 by omega,
      show (0x8000 + x * 256 + y * 16 + 5) ≠ 0x00EE by omega,
      register_eq s hx, register_eq s hy, setRegister_eq, hx, hy,
      Processor.setFlagRegister, FLAG_REGISTER_INDEX]
  · simp [updateReg]
  · intro hx15
    simp [updateReg, hx15]
  · intro j hjx hj15
    simp [updateReg, hjx, hj15]
  · simp [execute, nibble0_decode h8 hx hy d7, nibble1_decode h8 hx hy d7,
      nibble2_decode h8 hx hy d7, nibble3_decode h8 hx hy d7,
      show (0x8000 + x * 256 + y * 16 + 7) ≠ 0x00E0 by omega,
      show (0x8000 + x * 256 + y * 16 + 7) ≠ 0x00EE by omega,
      register_eq s hx, register_eq s hy, setRegister_eq, hx, hy,
      Processor.setFlagRegister, FLAG_REGISTER_INDEX]
  · simp [updateReg]
  · intro hx15
    simp [updateReg, hx15]
  · intro j hjx hj15
    simp [updateReg, hjx, hj15]

/-- C8 witness: with V1 = 200 and V2 = 100, instruction 8124 leaves
V1 = 44 and the flag register 1 (200 + 100 overflows). -/
theorem C8_arith_flags_witness :
    ∃ s2, execute 0 stateC8 (0x8000 + 1 * 256 + 2 * 16 + 4) = .ok s2 ∧
      s2.variable_registers 15 = 1 ∧ s2.variable_registers 1 = 44 := by
  obtain ⟨⟨s2, he, h15, hxv, -⟩, -, -⟩ :=
    C8_arith_flags 0 1 2 stateC8 (by decide) (by decide) (by decide) (by decide)
  refine ⟨s2, he, ?_, ?_⟩
  · rw [h15]
    decide
  · rw [hxv (by decide)]
    decide

/-! Claim C9. -/

/-- C9: EX9E skips the next instruction (program counter advanced by an
extra 2) exactly when the key named by the test register's value is in the
pressed-key set, and EXA1 skips exactly when it is not; register values of
16 or more match nothing in both instructions: no skip and no error. -/
theorem C9_key_skip (rnd x : Nat) (s : Processor) (hx : x < 16) :
    (∀ h : s.variable_registers x < 16,
      (⟨s.variable_registers x, h⟩ : Key) ∈ s.keys →
        execute rnd s (0xE000 + x * 256 + 0x9E) =
          .ok { s with program_counter := (s.program_counter + 2) % 65536 }) ∧
    (∀ h : s.variable_registers x < 16,
      (⟨s.variable_registers x, h⟩ : Key) ∉ s.keys →
        execute rnd s (0xE000 + x * 256 + 0x9E) = .ok s) ∧
    (∀ h : s.variable_registers x < 16,
      (⟨s.variable_registers x, h⟩ : Key) ∉ s.keys →
        execute rnd s (0xE000 + x * 256 + 0xA1) =
          .ok { s with program_counter := (s.program_counter + 2) % 65536 }) ∧
    (∀ h : s.variable_registers x < 16,
      (⟨s.variable_registers x, h⟩ : Key) ∈ s.keys →
        execute rnd s (0xE000 + x * 256 + 0xA1) = .ok s) ∧
    (16 ≤ s.variable_registers x →
      execute rnd s (0xE000 + x * 256 + 0x9E) = .ok s ∧
      execute rnd s (0xE000 + x * 256 + 0xA1) = .ok s) := by
  have h9e0 : nibble (0xE000 + x * 256 + 0x9E) 0 = 0xE := by
    show (0xE000 + x * 256 + 0x9E) / 4096 % 16 = 0xE
    omega
  have h9e1 : nibble (0xE000 + x * 256 + 0x9E) 1 = x := by
    show (0xE000 + x * 256 + 0x9E) / 256 % 16 = x
    omega
  have h9e2 : nibble (0xE000 + x * 256 + 0x9E) 2 = 9 := by
    show (0xE000 + x * 256 + 0x9E) / 16 % 16 = 9
    omega
  have h9e3 : nibble (0xE000 + x * 256 + 0x9E) 3 = 0xE := by
    show (0xE000 + x * 256 + 0x9E) % 16 = 0xE
    omega
  have ha10 : nibble (0xE000 + x * 256 + 0xA1) 0 = 0xE := by
    show (0xE000 + x * 256 + 0xA1) / 4096 % 16 = 0xE
    omega
  have ha11 : nibble (0xE000 + x * 256 + 0xA1) 1 = x := by
    show (0xE000 + x * 256 + 0xA1) / 256 % 16 = x
    omega
  have ha12 : nibble (0xE000 + x * 256 + 0xA1) 2 = 0xA := by
    show (0xE000 + x * 256 + 0xA1) / 16 % 16 = 0xA
    omega
  have ha13 : nibble (0xE000 + x * 256 + 0xA1) 3 = 1 := by
    show (0xE000 + x * 256 + 0xA1) % 16 = 1
    omega
  have he0a : (0xE000 + x * 256 + 0x9E) ≠ 0x00E0 := by omega
  have heea : (0xE000 + x * 256 + 0x9E) ≠ 0x00EE := by omega
  have he0b : (0xE000 + x * 256 + 0xA1) ≠ 0x00E0 := by omega
  have heeb : (0xE000 + x * 256 + 0xA1) ≠ 0x00EE := by omega
  refine ⟨?_, ?_, ?_, ?_, ?_⟩
  · intro h hmem
    simp [execute, h9e0, h9e1, h9e2, h9e3, he0a, heea, register_eq s hx,
      Key.tryFrom, h, hmem]
  · intro h hmem
    simp [execute, h9e0, h9e1, h9e2, h9e3, he0a, heea, register_eq s hx,
      Key.tryFrom, h, hmem]
  · intro h hmem
    simp [execute, ha10, ha11, ha12, ha13, he0b, heeb, register_eq s hx,
      Key.tryFrom, h, hmem]
  · intro h hmem
    simp [execute, ha10, ha11, ha12, ha13, he0b, heeb, register_eq s hx,
      Key.tryFrom, h, hmem]
  · intro h
    constructor
    · simp [execute, h9e0, h9e1, h9e2, h9e3, he0a, heea, register_eq s hx,
        Key.tryFrom, show ¬(s.variable_registers x < 16) by omega]
    · simp [execute, ha10, ha11, ha12, ha13, he0b, heeb, register_eq s hx,
        Key.tryFrom, show ¬(s.variable_registers x < 16) by omega]

/-- C9 witness: E29E skips (key 5 pressed and V2 = 5); E2A1 does not skip;
E39E with V3 = 60 (at least 16) does nothing. -/
theorem C9_key_skip_witness :
    execute 0 stateC9 (0xE000 + 2 * 256 + 0x9E) =
      .ok { stateC9 with program_counter := (stateC9.program_counter + 2) % 65536 } ∧
    execute 0 stateC9 (0xE000 + 2 * 256 + 0xA1) = .ok stateC9 ∧
    execute 0 stateC9 (0xE000 + 3 * 256 + 0x9E) = .ok stateC9 :=
  ⟨(C9_key_skip 0 2 stateC9 (by decide)).1 (by decide) (by decide),
   (C9_key_skip 0 2 stateC9 (by decide)).2.2.2.1 (by decide) (by decide),
   ((C9_key_skip 0 3 stateC9 (by decide)).2.2.2.2 (by decide)).1⟩

/-! Claim C6. -/

/-- C6: the FX0A key-wait state machine across steps. (i) With the machine
Idle, a step at FX0A snapshots the pressed-key set into the blocking state
and rewinds the program counter so the same instruction re-executes; (ii)
while every snapshot key is still in the live set, a further step leaves
the program counter at the waiting instruction, refreshes the snapshot to
the live set, and changes no register; (iii) as soon as some snapshot key
is absent from the live set, the destination register receives the code of
one such released key, the blocking state returns to Idle, and the program
counter ends up past the waiting instruction. -/
theorem C6_key_wait (rnd x : Nat) (s : Processor) (hx : x < 16)
    (hpc2 : s.program_counter + 2 < 65536)
    (hi : s.memory[s.program_counter]? = some (0xF0 + x))
    (hlo : s.memory[s.program_counter + 1]? = some 0x0A) :
    (s.blocking = none →
      ∃ s2, step rnd s = .ok s2 ∧ s2.blocking = some ⟨s.keys⟩ ∧
        s2.program_counter = s.program_counter ∧
        s2.variable_registers = s.variable_registers ∧
        s2.memory = s.memory ∧ s2.keys = s.keys) ∧
    (∀ snap, s.blocking = some ⟨snap⟩ → (∀ k ∈ snap, k ∈ s.keys) →
      ∃ s2, step rnd s = .ok s2 ∧ s2.blocking = some ⟨s.keys⟩ ∧
        s2.program_counter = s.program_counter ∧
        s2.variable_registers = s.variable_registers ∧
        s2.memory = s.memory ∧ s2.keys = s.keys) ∧
    (∀ snap, s.blocking = some ⟨snap⟩ → (∃ k ∈ snap, k ∉ s.keys) →
      ∃ s2 k, step rnd s = .ok s2 ∧ k ∈ snap ∧ k ∉ s.keys ∧
        s2.variable_registers x = (k : Key).val ∧
        (∀ j, j ≠ x → s2.variable_registers j = s.variable_registers j) ∧
        s2.blocking = none ∧
        s2.program_counter = (s.program_counter + 2) % 65536) := by
  have h0 : nibble ((0xF0 + x) * 256 + 0x0A) 0 = 0xF := by
    show ((0xF0 + x) * 256 + 0x0A) / 4096 % 16 = 0xF
    omega
  have h1 : nibble ((0xF0 + x) * 256 + 0x0A) 1 = x := by
    show ((0xF0 + x) * 256 + 0x0A) / 256 % 16 = x
    omega
  have h2 : nibble ((0xF0 + x) * 256 + 0x0A) 2 = 0 := by
    show ((0xF0 + x) * 256 + 0x0A) / 16 % 16 = 0
    omega
  have h3 : nibble ((0xF0 + x) * 256 + 0x0A) 3 = 0xA := by
    show ((0xF0 + x) * 256 + 0x0A) % 16 = 0xA
    omega
  have he0 : ((0xF0 + x) * 256 + 0x0A) ≠ 0x00E0 := by omega
  have hee : ((0xF0 + x) * 256 + 0x0A) ≠ 0x00EE := by omega
  refine ⟨?_, ?_, ?_⟩
  · intro hblock
    refine ⟨{ s with
        program_counter := ((s.program_counter + 2) % 65536 + 65534) % 65536,
        blocking := some ⟨s.keys⟩ }, ?_, rfl,
      by show ((s.program_counter + 2) % 65536 + 65534) % 65536 = s.program_counter; omega,
      rfl, rfl, rfl⟩
    simp [step, hi, hlo, execute, h0, h1, h2, h3, he0, hee, execF1, execF2,
      execF3, execF4, ExecResult.seq, hblock]
  · intro snap hblock hkeys
    have hfilter : snap.filter (fun k => decide (k ∉ s.keys)) = [] := by
      rw [List.filter_eq_nil_iff]
      intro a ha
      simp [hkeys a ha]
    have hcu : BlockingState.compareAndUpdate ⟨snap⟩ s.keys = (none, ⟨s.keys⟩) := by
      show ((snap.filter (fun k => decide (k ∉ s.keys))).head?,
        (⟨s.keys⟩ : BlockingState)) = (none, ⟨s.keys⟩)
      rw [hfilter]
      rfl
    refine ⟨{ s with
        program_counter := ((s.program_counter + 2) % 65536 + 65534) % 65536,
        blocking := some ⟨s.keys⟩ }, ?_, rfl,
      by show ((s.program_counter + 2) % 65536 + 65534) % 65536 = s.program_counter; omega,
      rfl, rfl, rfl⟩
    simp [step, hi, hlo, execute, h0, h1, h2, h3, he0, hee, execF1, execF2,
      execF3, execF4, ExecResult.seq, hblock, hcu]
  · intro snap hblock hrel
    obtain ⟨k, hk, hknot⟩ := hrel
    have hne : snap.filter (fun k => decide (k ∉ s.keys)) ≠ [] := by
      intro hnil
      rw [List.filter_eq_nil_iff] at hnil
      exact hnil k hk (by simp [hknot])
    obtain ⟨k0, rest, hf⟩ : ∃ k0 rest,
        snap.filter (fun k => decide (k ∉ s.keys)) = k0 :: rest := by
      cases hcase : snap.filter (fun k => decide (k ∉ s.keys)) with
      | nil => exact absurd hcase hne
      | cons a l => exact ⟨a, l, rfl⟩
    have hk0 : k0 ∈ snap ∧ k0 ∉ s.keys := by
      have hmem : k0 ∈ snap.filter (fun k => decide (k ∉ s.keys)) := by
        rw [hf]
        exact List.mem_cons_self _ _
      rw [List.mem_filter] at hmem
      exact ⟨hmem.1, by simpa using hmem.2⟩
    have hcu : BlockingState.compareAndUpdate ⟨snap⟩ s.keys = (some k0, ⟨s.keys⟩) := by
      show ((snap.filter (fun k => decide (k ∉ s.keys))).head?,
        (⟨s.keys⟩ : BlockingState)) = (some k0, ⟨s.keys⟩)
      rw [hf]
      rfl
    refine ⟨{ s with
        program_counter := (s.program_counter + 2) % 65536,
        variable_registers := updateReg s.variable_registers x k0.val,
        blocking := none }, k0, ?_, hk0.1, hk0.2, ?_, ?_, rfl, rfl⟩
    · simp [step, hi, hlo, execute, h0, h1, h2, h3, he0, hee, execF1, execF2,
        execF3, execF4, ExecResult.seq, hblock, hcu, setRegister_eq, hx]
    · simp [updateReg]
    · intro j hj
      simp [updateReg, hj]

theorem memC6_hi : memC6[(512 : Nat)]? = some (0xF0 + 1) := by
  rw [show memC6 = copySlice Processor.new.memory 0x200 [0xF1, 0x0A] from rfl,
    copySlice_getElem? _ _ _ _ (by rw [new_memory_length]; decide)]
  decide

theorem memC6_lo : memC6[(512 : Nat) + 1]? = some 0x0A := by
  rw [show memC6 = copySlice Processor.new.memory 0x200 [0xF1, 0x0A] from rfl,
    copySlice_getElem? _ _ _ _ (by rw [new_memory_length]; decide)]
  decide

/-- C6 witness: with F10A at the program counter, (i) an Idle step blocks
and holds the counter; (ii) while key 3 is still held the counter stays;
(iii) once key 3 is released, V1 receives code 3, the machine unblocks and
the counter advances. -/
theorem C6_key_wait_witness :
    (∃ s2, step 0 { Processor.new with memory := memC6, keys := [(3 : Key)] } =
        .ok s2 ∧ s2.blocking = some ⟨[(3 : Key)]⟩ ∧ s2.program_counter = 0x200) ∧
    (∃ s2, step 0 { Processor.new with memory := memC6, keys := [(3 : Key)], blocking := some ⟨[(3 : Key)]⟩ } = .ok s2 ∧
        s2.program_counter = 0x200 ∧ s2.blocking = some ⟨[(3 : Key)]⟩) ∧
    (∃ s2 k, step 0 { Processor.new with memory := memC6, keys := [], blocking := some ⟨[(3 : Key)]⟩ } = .ok s2 ∧ k ∈ [(3 : Key)] ∧
        s2.variable_registers 1 = (k : Key).val ∧ s2.blocking = none ∧
        s2.program_counter = 0x202) := by
  refine ⟨?_, ?_, ?_⟩
  · obtain ⟨s2, he, hb, hpc, -⟩ :=
      (C6_key_wait 0 1 { Processor.new with memory := memC6, keys := [(3 : Key)] }
        (by decide) (by decide) memC6_hi memC6_lo).1 rfl
    exact ⟨s2, he, hb, hpc⟩
  · obtain ⟨s2, he, hb, hpc, -⟩ :=
      ((C6_key_wait 0 1 { Processor.new with memory := memC6, keys := [(3 : Key)], blocking := some ⟨[(3 : Key)]⟩ }
        (by decide) (by decide) memC6_hi memC6_lo).2.1) [(3 : Key)] rfl
        (by intro k hk; simpa using hk)
    exact ⟨s2, he, hpc, hb⟩
  · obtain ⟨s2, k, he, hk, hknot, hreg, -, hb, hpc⟩ :=
      ((C6_key_wait 0 1 { Processor.new with memory := memC6, keys := [], blocking := some ⟨[(3 : Key)]⟩ }
        (by decide) (by decide) memC6_hi memC6_lo).2.2) [(3 : Key)] rfl
        ⟨3, by decide, by decide⟩
    exact ⟨s2, k, he, hk, hreg, hb, hpc⟩

/-! Characterization of the draw loops (used for C5 and C1). -/

theorem drawBits_spec (fuel : Nat) :
    ∀ (i spriteRow dx dy : Nat) (s : Processor),
    s.display.length = 2048 → dx < 64 → dy < 32 →
    ∃ s2 d2, drawBits s fuel i spriteRow dx dy = some (s2, d2) ∧
      s2.display.length = 2048 ∧
      s2.memory = s.memory ∧
      s2.index_register = s.index_register ∧
      (∀ j, j ≠ 15 → s2.variable_registers j = s.variable_registers j) ∧
      (∀ p : Nat, (∀ j, j < fuel → dx + j < 64 → p ≠ dy * 64 + (dx + j)) →
        s2.display[p]? = s.display[p]?) ∧
      (∀ j, j < fuel → dx + j < 64 →
        s2.display[dy * 64 + (dx + j)]? =
          some (Bool.xor (s.display.getD (dy * 64 + (dx + j)) false)
            (decide (spriteRow / 2 ^ (7 - (i + j)) % 2 = 1)))) ∧
      ((∃ j, j < fuel ∧ dx + j < 64 ∧ spriteRow / 2 ^ (7 - (i + j)) % 2 = 1 ∧
          s.display.getD (dy * 64 + (dx + j)) false = true) →
        s2.variable_registers 15 = 1) ∧
      (¬(∃ j, j < fuel ∧ dx + j < 64 ∧ spriteRow / 2 ^ (7 - (i + j)) % 2 = 1 ∧
          s.display.getD (dy * 64 + (dx + j)) false = true) →
        s2.variable_registers 15 = s.variable_registers 15) := by
  induction fuel with
  | zero =>
    intro i spriteRow dx dy s hdisp hdx hdy
    refine ⟨s, dx, rfl, hdisp, rfl, rfl, fun j hj => rfl, fun p hp => rfl,
      ?_, ?_, ?_⟩
    · intro j hj hj64
      omega
    · rintro ⟨j, hj, -⟩
      omega
    · intro h
      rfl
  | succ fuel ih =>
    intro i spriteRow dx dy s hdisp hdx hdy
    have hidx : dy * 64 + dx < 2048 := by omega
    obtain ⟨pixel, hpix⟩ : ∃ b, s.display[dy * 64 + dx]? = some b :=
      ⟨_, List.getElem?_eq_getElem (by rw [hdisp]; omega)⟩
    have hgetD : s.display.getD (dy * 64 + dx) false = pixel := by
      rw [List.getD_eq_getElem?_getD, hpix]
      rfl
    have key : ∃ s1, (drawBits s (fuel + 1) i spriteRow dx dy =
        if 64 ≤ dx + 1 then some (s1, dx + 1)
        else drawBits s1 fuel (i + 1) spriteRow (dx + 1) dy) ∧
        s1.display.length = 2048 ∧
        s1.memory = s.memory ∧
        s1.index_register = s.index_register ∧
        (∀ j, j ≠ 15 → s1.variable_registers j = s.variable_registers j) ∧
        s1.display[dy * 64 + dx]? =
          some (Bool.xor pixel (decide (spriteRow / 2 ^ (7 - i) % 2 = 1))) ∧
        (∀ p : Nat, p ≠ dy * 64 + dx → s1.display[p]? = s.display[p]?) ∧
        (spriteRow / 2 ^ (7 - i) % 2 = 1 ∧ pixel = true →
          s1.variable_registers 15 = 1) ∧
        (¬(spriteRow / 2 ^ (7 - i) % 2 = 1 ∧ pixel = true) →
          s1.variable_registers 15 = s.variable_registers 15) := by
      refine ⟨if spriteRow / 2 ^ (7 - i) % 2 = 1 ∧ pixel then
          { s with display := s.display.set (dy * 64 + dx) false,
                   variable_registers := updateReg s.variable_registers 0xF 1 }
        else if spriteRow / 2 ^ (7 - i) % 2 = 1 ∧ ¬pixel then
          { s with display := s.display.set (dy * 64 + dx) true }
        else s, ?_, ?_, ?_, ?_, ?_, ?_, ?_, ?_, ?_⟩
      · simp only [drawBits, DISPLAY_WIDTH, hpix, ge_iff_le]
      · split_ifs <;> simp [hdisp]
      · split_ifs <;> rfl
      · split_ifs <;> rfl
      · intro j hj
        split_ifs <;> simp [updateReg, hj]
      · split_ifs with h1 h2
        · rw [List.getElem?_set_self (by rw [hdisp]; omega)]
          simp [h1.1, h1.2]
        · rw [List.getElem?_set_self (by rw [hdisp]; omega)]
          have hp : pixel = false := by
            rcases h2 with ⟨-, hp⟩
            simp at hp
            exact hp
          simp [h2.1, hp]
        · have hb : ¬ spriteRow / 2 ^ (7 - i) % 2 = 1 := by
            intro hbb
            by_cases hp : pixel = true
            · exact h1 ⟨hbb, hp⟩
            · exact h2 ⟨hbb, by simpa using hp⟩
          simp [hpix, hb]
      · intro p hp
        split_ifs <;> simp [List.getElem?_set_ne (fun hh => hp hh.symm)]
      · intro hc
        rw [if_pos ⟨hc.1, hc.2⟩]
        simp [updateReg]
      · intro hc
        split_ifs with h1
        · rfl
        · rfl
    obtain ⟨s1, hstep, hA1, hA2, hA3, hA4, hA5, hA6, hA7, hA8⟩ := key
    by_cases hterm : 64 ≤ dx + 1
    · rw [if_pos hterm] at hstep
      refine ⟨s1, dx + 1, hstep, hA1, hA2, hA3, hA4, ?_, ?_, ?_, ?_⟩
      · intro p hguard
        exact hA6 p (by
          have := hguard 0 (by omega) (by omega)
          simpa using this)
      · intro j hj hj64
        have hj0 : j = 0 := by omega
        subst hj0
        simp only [Nat.add_zero]
        rw [hgetD]
        exact hA5
      · rintro ⟨j, hj, hj64, hbit, hpx⟩
        have hj0 : j = 0 := by omega
        subst hj0
        simp only [Nat.add_zero] at hbit hpx
        rw [hgetD] at hpx
        exact hA7 ⟨hbit, hpx⟩
      · intro hnone
        refine hA8 fun hcol => hnone ⟨0, by omega, by omega, ?_, ?_⟩
        · simpa using hcol.1
        · simp only [Nat.add_zero]
          rw [hgetD]
          exact hcol.2
    · rw [if_neg hterm] at hstep
      have hdx1 : dx + 1 < 64 := by omega
      obtain ⟨s2, d2, hrec, hB1, hB2, hB3, hB4, hB5, hB6, hB7, hB8⟩ :=
        ih (i + 1) spriteRow (dx + 1) dy s1 hA1 hdx1 hdy
      have hne0 : ∀ j, dy * 64 + dx ≠ dy * 64 + (dx + 1 + j) := by
        intro j
        omega
      have hgetD1 : ∀ j, s1.display.getD (dy * 64 + (dx + 1 + j)) false =
          s.display.getD (dy * 64 + (dx + 1 + j)) false := by
        intro j
        rw [List.getD_eq_getElem?_getD, List.getD_eq_getElem?_getD,
          hA6 _ (fun hh => hne0 j hh.symm)]
      refine ⟨s2, d2, hstep.trans hrec, hB1, hB2.trans hA2, hB3.trans hA3, ?_,
        ?_, ?_, ?_, ?_⟩
      · intro j hj
        rw [hB4 j hj, hA4 j hj]
      · intro p hguard
        rw [hB5 p (by
          intro j hj hj64
          have := hguard (j + 1) (by omega) (by omega)
          intro hh
          apply this
          rw [hh]
          congr 1
          omega)]
        exact hA6 p (by
          have := hguard 0 (by omega) (by omega)
          simpa using this)
      · intro j hj hj64
        rcases Nat.eq_zero_or_pos j with hj0 | hjpos
        · subst hj0
          simp only [Nat.add_zero]
          rw [hB5 _ (fun j2 hj2 hj264 => hne0 j2)]
          rw [hgetD]
          exact hA5
        · obtain ⟨j1, rfl⟩ : ∃ j1, j = j1 + 1 := ⟨j - 1, by omega⟩
          have hidx2 : dy * 64 + (dx + (j1 + 1)) = dy * 64 + (dx + 1 + j1) := by
            omega
          have hexp : i + (j1 + 1) = i + 1 + j1 := by omega
          rw [hidx2, hexp, hB6 j1 (by omega) (by omega), hgetD1 j1]
      · rintro ⟨j, hj, hj64, hbit, hpx⟩
        rcases Nat.eq_zero_or_pos j with hj0 | hjpos
        · subst hj0
          simp only [Nat.add_zero] at hbit hpx
          rw [hgetD] at hpx
          have hvf1 : s1.variable_registers 15 = 1 := hA7 ⟨hbit, hpx⟩
          by_cases hrest : ∃ j, j < fuel ∧ dx + 1 + j < 64 ∧
              spriteRow / 2 ^ (7 - (i + 1 + j)) % 2 = 1 ∧
              s1.display.getD (dy * 64 + (dx + 1 + j)) false = true
          · exact hB7 hrest
          · rw [hB8 hrest]
            exact hvf1
        · obtain ⟨j1, rfl⟩ : ∃ j1, j = j1 + 1 := ⟨j - 1, by omega⟩
          refine hB7 ⟨j1, by omega, by omega, ?_, ?_⟩
          · have hexp : i + 1 + j1 = i + (j1 + 1) := by omega
            rw [hexp]
            exact hbit
          · rw [hgetD1 j1]
            have hidx2 : dy * 64 + (dx + 1 + j1) = dy * 64 + (dx + (j1 + 1)) := by
              omega
            rw [hidx2]
            exact hpx
      · intro hnone
        have hvf0 : s1.variable_registers 15 = s.variable_registers 15 := by
          refine hA8 fun hcol => hnone ⟨0, by omega, by omega, ?_, ?_⟩
          · simpa using hcol.1
          · simp only [Nat.add_zero]
            rw [hgetD]
            exact hcol.2
        rw [hB8 (by
          rintro ⟨j, hj, hj64, hbit, hpx⟩
          apply hnone
          refine ⟨j + 1, by omega, by omega, ?_, ?_⟩
          · have hexp : i + (j + 1) = i + 1 + j := by omega
            rw [hexp]
            exact hbit
          · have hidx2 : dy * 64 + (dx + (j + 1)) = dy * 64 + (dx + 1 + j) := by
              omega
            rw [hidx2, ← hgetD1 j]
            exact hpx)]
        exact hvf0

theorem drawRows_spec (rowsLeft : Nat) :
    ∀ (n dx0 dy : Nat) (s : Processor),
    s.display.length = 2048 → dx0 < 64 → dy < 32 →
    s.index_register + n + rowsLeft ≤ s.memory.length →
    ∃ s2, drawRows s rowsLeft n dx0 dx0 dy = some s2 ∧
      s2.display.length = 2048 ∧
      s2.memory = s.memory ∧
      s2.index_register = s.index_register ∧
      (∀ j, j ≠ 15 → s2.variable_registers j = s.variable_registers j) ∧
      (∀ p : Nat,
        (∀ r j, r < rowsLeft → dy + r < 32 → j < 8 → dx0 + j < 64 →
          p ≠ (dy + r) * 64 + (dx0 + j)) →
        s2.display[p]? = s.display[p]?) ∧
      (∀ r j, r < rowsLeft → dy + r < 32 → j < 8 → dx0 + j < 64 →
        s2.display[(dy + r) * 64 + (dx0 + j)]? =
          some (Bool.xor (s.display.getD ((dy + r) * 64 + (dx0 + j)) false)
            (decide (s.memory.getD (s.index_register + n + r) 0 / 2 ^ (7 - j) % 2
              = 1)))) ∧
      ((∃ r j, r < rowsLeft ∧ dy + r < 32 ∧ j < 8 ∧ dx0 + j < 64 ∧
          s.memory.getD (s.index_register + n + r) 0 / 2 ^ (7 - j) % 2 = 1 ∧
          s.display.getD ((dy + r) * 64 + (dx0 + j)) false = true) →
        s2.variable_registers 15 = 1) ∧
      (¬(∃ r j, r < rowsLeft ∧ dy + r < 32 ∧ j < 8 ∧ dx0 + j < 64 ∧
          s.memory.getD (s.index_register + n + r) 0 / 2 ^ (7 - j) % 2 = 1 ∧
          s.display.getD ((dy + r) * 64 + (dx0 + j)) false = true) →
        s2.variable_registers 15 = s.variable_registers 15) := by
  induction rowsLeft with
  | zero =>
    intro n dx0 dy s hdisp hdx0 hdy hmem
    refine ⟨s, rfl, hdisp, rfl, rfl, fun j hj => rfl, fun p hp => rfl, ?_, ?_, ?_⟩
    · intro r j hr
      omega
    · rintro ⟨r, j, hr, -⟩
      omega
    · intro h
      rfl
  | succ rowsLeft ih =>
    intro n dx0 dy s hdisp hdx0 hdy hmem
    obtain ⟨row, hrow⟩ : ∃ b, s.memory[s.index_register + n]? = some b :=
      ⟨_, List.getElem?_eq_getElem (by omega)⟩
    have hrowD : s.memory.getD (s.index_register + n) 0 = row := by
      rw [List.getD_eq_getElem?_getD, hrow]
      rfl
    obtain ⟨s1, d1, hinner, hC1, hC2, hC3, hC4, hC5, hC6, hC7, hC8⟩ :=
      drawBits_spec 8 0 row dx0 dy s hdisp hdx0 hdy
    have hCgetD : ∀ q : Nat,
        (∀ j, j < 8 → dx0 + j < 64 → q ≠ dy * 64 + (dx0 + j)) →
        s1.display.getD q false = s.display.getD q false := by
      intro q hq
      rw [List.getD_eq_getElem?_getD, List.getD_eq_getElem?_getD, hC5 q hq]
    have hstep : drawRows s (rowsLeft + 1) n dx0 dx0 dy =
        if 32 ≤ dy + 1 then some s1
        else drawRows s1 rowsLeft (n + 1) dx0 dx0 (dy + 1) := by
      simp only [drawRows, DISPLAY_HEIGHT, hrow, hinner, ge_iff_le]
    by_cases hterm : 32 ≤ dy + 1
    · rw [if_pos hterm] at hstep
      refine ⟨s1, hstep, hC1, hC2, hC3, hC4, ?_, ?_, ?_, ?_⟩
      · intro p hguard
        refine hC5 p fun j hj hj64 => ?_
        have := hguard 0 j (by omega) (by omega) hj hj64
        simpa using this
      · intro r j hr hr32 hj hj64
        have hr0 : r = 0 := by omega
        subst hr0
        simp only [Nat.add_zero]
        simp only [hrowD]
        have := hC6 j hj hj64
        simpa using this
      · rintro ⟨r, j, hr, hr32, hj, hj64, hbit, hpx⟩
        have hr0 : r = 0 := by omega
        subst hr0
        simp only [Nat.add_zero] at hbit hpx
        rw [hrowD] at hbit
        refine hC7 ⟨j, hj, hj64, by simpa using hbit, hpx⟩
      · intro hnone
        refine hC8 ?_
        rintro ⟨j, hj, hj64, hbit, hpx⟩
        apply hnone
        refine ⟨0, j, by omega, by omega, hj, hj64, ?_, ?_⟩
        · simp only [Nat.add_zero]
          rw [hrowD]
          simpa using hbit
        · simpa using hpx
    · rw [if_neg hterm] at hstep
      have hdy1 : dy + 1 < 32 := by omega
      have hrowsne : ∀ (r a b : Nat), a < 64 → b < 64 →
          (dy + 1 + r) * 64 + a ≠ dy * 64 + b := by
        intro r a b ha hb
        omega
      obtain ⟨s2, hrec, hD1, hD2, hD3, hD4, hD5, hD6, hD7, hD8⟩ :=
        ih (n + 1) dx0 (dy + 1) s1 hC1 hdx0 hdy1
          (by rw [hC3, hC2]; omega)
      have houtguard : ∀ p : Nat,
          (∀ j, j < 8 → dx0 + j < 64 → p ≠ dy * 64 + (dx0 + j)) →
          (∀ r j, r < rowsLeft → dy + 1 + r < 32 → j < 8 → dx0 + j < 64 →
            p ≠ (dy + 1 + r) * 64 + (dx0 + j)) →
          s2.display[p]? = s.display[p]? := by
        intro p h0 hrest
        rw [hD5 p hrest]
        exact hC5 p h0
      refine ⟨s2, hstep.trans hrec, hD1, hD2.trans hC2, hD3.trans hC3, ?_, ?_,
        ?_, ?_, ?_⟩
      · intro j hj
        rw [hD4 j hj, hC4 j hj]
      · intro p hguard
        refine houtguard p ?_ ?_
        · intro j hj hj64
          have := hguard 0 j (by omega) (by omega) hj hj64
          simpa using this
        · intro r j hr hr32 hj hj64
          have := hguard (r + 1) j (by omega) (by omega) hj hj64
          intro hh
          exact this (by omega)
      · intro r j hr hr32 hj hj64
        rcases Nat.eq_zero_or_pos r with hr0 | hrpos
        · subst hr0
          simp only [Nat.add_zero]
          simp only [hrowD]
          rw [hD5 _ (by
            intro r2 j2 hr2 hr232 hj2 hj264
            exact Ne.symm (hrowsne r2 (dx0 + j2) (dx0 + j) hj264 hj64))]
          have := hC6 j hj hj64
          simpa using this
        · obtain ⟨r1, rfl⟩ : ∃ r1, r = r1 + 1 := ⟨r - 1, by omega⟩
          have hidx2 : (dy + (r1 + 1)) * 64 + (dx0 + j) =
              (dy + 1 + r1) * 64 + (dx0 + j) := by omega
          have hmidx : s.index_register + n + (r1 + 1) =
              s.index_register + (n + 1) + r1 := by omega
          rw [hidx2]
          simp only [hmidx]
          have := hD6 r1 j (by omega) (by omega) hj hj64
          rw [this, hCgetD _ (fun j2 hj2 hj264 =>
            hrowsne r1 (dx0 + j) (dx0 + j2) hj64 hj264)]
          simp only [hC2, hC3]
      · rintro ⟨r, j, hr, hr32, hj, hj64, hbit, hpx⟩
        rcases Nat.eq_zero_or_pos r with hr0 | hrpos
        · subst hr0
          simp only [Nat.add_zero] at hbit hpx
          rw [hrowD] at hbit
          have hvf1 : s1.variable_registers 15 = 1 :=
            hC7 ⟨j, hj, hj64, by simpa using hbit, hpx⟩
          by_cases hrest : ∃ r2 j2, r2 < rowsLeft ∧ dy + 1 + r2 < 32 ∧ j2 < 8 ∧
              dx0 + j2 < 64 ∧
              s1.memory.getD (s1.index_register + (n + 1) + r2) 0 / 2 ^ (7 - j2)
                % 2 = 1 ∧
              s1.display.getD ((dy + 1 + r2) * 64 + (dx0 + j2)) false = true
          · exact hD7 hrest
          · rw [hD8 hrest]
            exact hvf1
        · obtain ⟨r1, rfl⟩ : ∃ r1, r = r1 + 1 := ⟨r - 1, by omega⟩
          refine hD7 ⟨r1, j, by omega, by omega, hj, hj64, ?_, ?_⟩
          · rw [hC2, hC3]
            have hmidx : s.index_register + (n + 1) + r1 =
                s.index_register + n + (r1 + 1) := by omega
            rw [hmidx]
            exact hbit
          · rw [hCgetD _ (fun j2 hj2 hj264 =>
              hrowsne r1 (dx0 + j) (dx0 + j2) hj64 hj264)]
            have hidx2 : (dy + 1 + r1) * 64 + (dx0 + j) =
                (dy + (r1 + 1)) * 64 + (dx0 + j) := by omega
            rw [hidx2]
            exact hpx
      · intro hnone
        have hvf0 : s1.variable_registers 15 = s.variable_registers 15 := by
          refine hC8 ?_
          rintro ⟨j, hj, hj64, hbit, hpx⟩
          apply hnone
          refine ⟨0, j, by omega, by omega, hj, hj64, ?_, by simpa using hpx⟩
          simp only [Nat.add_zero]
          rw [hrowD]
          simpa using hbit
        rw [hD8 (by
          rintro ⟨r, j, hr, hr32, hj, hj64, hbit, hpx⟩
          apply hnone
          refine ⟨r + 1, j, by omega, by omega, hj, hj64, ?_, ?_⟩
          · rw [hC2, hC3] at hbit
            have hmidx : s.index_register + n + (r + 1) =
                s.index_register + (n + 1) + r := by omega
            rw [hmidx]
            exact hbit
          · rw [hCgetD _ (fun j2 hj2 hj264 =>
              hrowsne r (dx0 + j) (dx0 + j2) hj64 hj264)] at hpx
            have hidx2 : (dy + (r + 1)) * 64 + (dx0 + j) =
                (dy + 1 + r) * 64 + (dx0 + j) := by omega
            rw [hidx2]
            exact hpx)]
        exact hvf0

/-! Claim C5. -/

theorem spriteRect_of_cell (s : Processor) (x y n px py r j : Nat)
    (hr : r < n) (hr32 : s.variable_registers y % 32 + r < 32) (hj : j < 8)
    (hj64 : s.variable_registers x % 64 + j < 64)
    (hpx : px = s.variable_registers x % 64 + j)
    (hpy : py = s.variable_registers y % 32 + r) :
    px < 64 ∧ py < 32 ∧ spriteRect s x y n px py := by
  unfold spriteRect
  omega

theorem cell_of_spriteRect (s : Processor) (x y n px py : Nat) (h64 : px < 64)
    (h32 : py < 32) (h : spriteRect s x y n px py) :
    (py - s.variable_registers y % 32) < n ∧
    s.variable_registers y % 32 + (py - s.variable_registers y % 32) < 32 ∧
    (px - s.variable_registers x % 64) < 8 ∧
    s.variable_registers x % 64 + (px - s.variable_registers x % 64) < 64 ∧
    s.variable_registers x % 64 + (px - s.variable_registers x % 64) = px ∧
    s.variable_registers y % 32 + (py - s.variable_registers y % 32) = py := by
  unfold spriteRect at h
  omega

/-- C5: the DXYN sprite draw. The start coordinates are the registers
modulo the display size, wrapped once; pixels outside the clipped sprite
rectangle are unchanged (clipping, not wrapping, at the right and bottom
edges); pixels under the sprite are XORed with the sprite bit; the flag
register is cleared at the start and ends 1 exactly when a set sprite bit
lands on an already-set pixel, each such pixel ending off; and drawing the
same sprite twice at the same position restores the display, with the flag
register 1 after the second draw whenever the sprite has any visible set
bit (the drawn pixels having started off). -/
theorem C5_draw (rnd rnd2 x y n : Nat) (s : Processor) (hx : x < 16)
    (hy : y < 16) (hn : n < 16) (hdisp : s.display.length = 2048)
    (hmem : s.index_register + n ≤ s.memory.length) :
    ∃ s2, execute rnd s (0xD000 + x * 256 + y * 16 + n) = .ok s2 ∧
      (∀ px py, px < 64 → py < 32 → ¬spriteRect s x y n px py →
        s2.pixel px py = s.pixel px py) ∧
      (∀ px py, px < 64 → py < 32 → spriteRect s x y n px py →
        s2.pixel px py = Bool.xor (s.pixel px py)
          (decide (spriteBit s x y px py = 1))) ∧
      (s2.variable_registers 15 = 1 ↔ ∃ px py, px < 64 ∧ py < 32 ∧
        spriteRect s x y n px py ∧ spriteBit s x y px py = 1 ∧
        s.pixel px py = true) ∧
      (s2.variable_registers 15 = 1 ∨ s2.variable_registers 15 = 0) ∧
      (∀ px py, px < 64 → py < 32 → spriteRect s x y n px py →
        spriteBit s x y px py = 1 → s.pixel px py = true →
        s2.pixel px py = false) ∧
      (∀ j, j ≠ 15 → s2.variable_registers j = s.variable_registers j) ∧
      s2.memory = s.memory ∧ s2.index_register = s.index_register ∧
      s2.display.length = 2048 ∧
      (x ≠ 15 → y ≠ 15 →
        (∀ px py, px < 64 → py < 32 → spriteRect s x y n px py →
          s.pixel px py = false) →
        ∃ s3, execute rnd2 s2 (0xD000 + x * 256 + y * 16 + n) = .ok s3 ∧
          (∀ px py, px < 64 → py < 32 → s3.pixel px py = s.pixel px py) ∧
          ((∃ px py, px < 64 ∧ py < 32 ∧ spriteRect s x y n px py ∧
              spriteBit s x y px py = 1) →
            s3.variable_registers 15 = 1)) := by
  have hdx0 : s.variable_registers x % 64 < 64 := Nat.mod_lt _ (by omega)
  have hdy0 : s.variable_registers y % 32 < 32 := Nat.mod_lt _ (by omega)
  have h0 : nibble (0xD000 + x * 256 + y * 16 + n) 0 = 0xD := by
    show (0xD000 + x * 256 + y * 16 + n) / 4096 % 16 = 0xD
    omega
  have h1 : nibble (0xD000 + x * 256 + y * 16 + n) 1 = x := by
    show (0xD000 + x * 256 + y * 16 + n) / 256 % 16 = x
    omega
  have h2 : nibble (0xD000 + x * 256 + y * 16 + n) 2 = y := by
    show (0xD000 + x * 256 + y * 16 + n) / 16 % 16 = y
    omega
  have h3 : nibble (0xD000 + x * 256 + y * 16 + n) 3 = n := by
    show (0xD000 + x * 256 + y * 16 + n) % 16 = n
    omega
  have he0 : (0xD000 + x * 256 + y * 16 + n) ≠ 0x00E0 := by omega
  have hee : (0xD000 + x * 256 + y * 16 + n) ≠ 0x00EE := by omega
  have key : ∀ (rr : Nat) (t : Processor), t.display.length = 2048 →
      t.index_register = s.index_register → t.memory = s.memory →
      t.variable_registers x = s.variable_registers x →
      t.variable_registers y = s.variable_registers y →
      ∃ t2, execute rr t (0xD000 + x * 256 + y * 16 + n) = .ok t2 ∧
        t2.display.length = 2048 ∧ t2.memory = t.memory ∧
        t2.index_register = t.index_register ∧
        (∀ j, j ≠ 15 → t2.variable_registers j = t.variable_registers j) ∧
        (∀ px py, px < 64 → py < 32 → ¬spriteRect s x y n px py →
          t2.pixel px py = t.pixel px py) ∧
        (∀ px py, px < 64 → py < 32 → spriteRect s x y n px py →
          t2.pixel px py = Bool.xor (t.pixel px py)
            (decide (spriteBit s x y px py = 1))) ∧
        ((∃ px py, px < 64 ∧ py < 32 ∧ spriteRect s x y n px py ∧
            spriteBit s x y px py = 1 ∧ t.pixel px py = true) →
          t2.variable_registers 15 = 1) ∧
        (¬(∃ px py, px < 64 ∧ py < 32 ∧ spriteRect s x y n px py ∧
            spriteBit s x y px py = 1 ∧ t.pixel px py = true) →
          t2.variable_registers 15 = 0) := by
    intro rr t htdisp htI htM htx hty
    obtain ⟨t2, hdraw, hF1, hF2, hF3, hF4, hF5, hF6, hF7, hF8⟩ :=
      drawRows_spec n 0 (t.variable_registers x % 64)
        (t.variable_registers y % 32)
        { t with variable_registers := updateReg t.variable_registers 15 0 }
        htdisp (by rw [htx]; exact hdx0) (by rw [hty]; exact hdy0)
        (by show t.index_register + 0 + n ≤ t.memory.length
            rw [htI, htM]
            omega)
    rw [htx] at hF5 hF6 hF7 hF8
    rw [hty] at hF5 hF6 hF7 hF8
    have hbitconv : ∀ r j : Nat,
        (({ t with variable_registers := updateReg t.variable_registers 15 0 }
            : Processor).memory.getD
          (({ t with variable_registers := updateReg t.variable_registers 15 0 }
            : Processor).index_register + 0 + r) 0 / 2 ^ (7 - j) % 2 = 1) ↔
        (s.memory.getD (s.index_register + r) 0 / 2 ^ (7 - j) % 2 = 1) := by
      intro r j
      show (t.memory.getD (t.index_register + 0 + r) 0 / 2 ^ (7 - j) % 2 = 1) ↔ _
      rw [htI, htM, Nat.add_zero]
    have hpixconv : ∀ p : Nat,
        ({ t with variable_registers := updateReg t.variable_registers 15 0 }
          : Processor).display.getD p false = (t.display[p]?).getD false := by
      intro p
      show t.display.getD p false = _
      rw [List.getD_eq_getElem?_getD]
    have hcoltrans :
        (∃ r j, r < n ∧ s.variable_registers y % 32 + r < 32 ∧ j < 8 ∧
          s.variable_registers x % 64 + j < 64 ∧
          (({ t with variable_registers := updateReg t.variable_registers 15 0 }
              : Processor).memory.getD
            (({ t with variable_registers :=
                updateReg t.variable_registers 15 0 } : Processor).index_register
              + 0 + r) 0 / 2 ^ (7 - j) % 2 = 1) ∧
          ({ t with variable_registers := updateReg t.variable_registers 15 0 }
            : Processor).display.getD
            ((s.variable_registers y % 32 + r) * 64 +
              (s.variable_registers x % 64 + j)) false = true) ↔
        (∃ px py, px < 64 ∧ py < 32 ∧ spriteRect s x y n px py ∧
          spriteBit s x y px py = 1 ∧ t.pixel px py = true) := by
      constructor
      · rintro ⟨r, j, hr, hr32, hj, hj64, hbit, hpx⟩
        refine ⟨s.variable_registers x % 64 + j, s.variable_registers y % 32 + r,
          by omega, by omega, ?_, ?_, ?_⟩
        · unfold spriteRect
          omega
        · rw [hbitconv] at hbit
          unfold spriteBit
          have hr2 : s.variable_registers y % 32 + r - s.variable_registers y % 32
              = r := by omega
          have hj2 : s.variable_registers x % 64 + j - s.variable_registers x % 64
              = j := by omega
          rw [hr2, hj2]
          exact hbit
        · rw [hpixconv] at hpx
          exact hpx
      · rintro ⟨px, py, h64, h32, hrect, hbit, hpx⟩
        obtain ⟨c1, c2, c3, c4, c5, c6⟩ :=
          cell_of_spriteRect s x y n px py h64 h32 hrect
        refine ⟨py - s.variable_registers y % 32, px - s.variable_registers x % 64,
          c1, c2, c3, c4, ?_, ?_⟩
        · rw [hbitconv]
          unfold spriteBit at hbit
          exact hbit
        · rw [hpixconv, c5, c6]
          exact hpx
    refine ⟨t2, ?_, hF1, hF2, hF3, ?_, ?_, ?_, ?_, ?_⟩
    · simp [execute, h0, h1, h2, h3, he0, hee, DISPLAY_WIDTH, DISPLAY_HEIGHT,
        hdraw]
    · intro j hj
      rw [hF4 j hj]
      simp [updateReg, hj]
    · intro px py h64 h32 hnot
      show (t2.display[py * 64 + px]?).getD false = (t.display[py * 64 + px]?).getD false
      rw [hF5 (py * 64 + px) (by
        intro r j hr hr32 hj hj64 hh
        apply hnot
        unfold spriteRect
        omega)]
    · intro px py h64 h32 hrect
      obtain ⟨c1, c2, c3, c4, c5, c6⟩ :=
        cell_of_spriteRect s x y n px py h64 h32 hrect
      show (t2.display[py * 64 + px]?).getD false = _
      have hcell : py * 64 + px = (s.variable_registers y % 32 +
          (py - s.variable_registers y % 32)) * 64 +
          (s.variable_registers x % 64 + (px - s.variable_registers x % 64)) := by
        omega
      rw [hcell, hF6 _ _ c1 c2 c3 c4]
      simp only [Option.getD_some]
      congr 1
      · rw [hpixconv, c5, c6]
        rfl
      · rw [decide_eq_decide]
        unfold spriteBit
        rw [htM, htI, Nat.add_zero]
    · intro hcol
      exact hF7 (hcoltrans.mpr hcol)
    · intro hncol
      rw [hF8 (fun hcol => hncol (hcoltrans.mp hcol))]
      simp [updateReg]
  obtain ⟨s2, hexec, hG1, hG2, hG3, hG4, hG5, hG6, hG7, hG8⟩ :=
    key rnd s hdisp rfl rfl rfl rfl
  have hvf : s2.variable_registers 15 = 1 ↔ ∃ px py, px < 64 ∧ py < 32 ∧
      spriteRect s x y n px py ∧ spriteBit s x y px py = 1 ∧
      s.pixel px py = true := by
    constructor
    · intro hone
      by_cases hcol : ∃ px py, px < 64 ∧ py < 32 ∧ spriteRect s x y n px py ∧
          spriteBit s x y px py = 1 ∧ s.pixel px py = true
      · exact hcol
      · rw [hG8 hcol] at hone
        omega
    · exact hG7
  refine ⟨s2, hexec, hG5, hG6, hvf, ?_, ?_, hG4, hG2, hG3, hG1, ?_⟩
  · by_cases hcol : ∃ px py, px < 64 ∧ py < 32 ∧ spriteRect s x y n px py ∧
        spriteBit s x y px py = 1 ∧ s.pixel px py = true
    · exact Or.inl (hG7 hcol)
    · exact Or.inr (hG8 hcol)
  · intro px py h64 h32 hrect hbit hpx
    rw [hG6 px py h64 h32 hrect, hpx, hbit]
    simp
  · intro hx15 hy15 hoff
    obtain ⟨s3, hexec2, hH1, hH2, hH3, hH4, hH5, hH6, hH7, hH8⟩ :=
      key rnd2 s2 hG1 hG3 hG2 (hG4 x hx15) (hG4 y hy15)
    refine ⟨s3, hexec2, ?_, ?_⟩
    · intro px py h64 h32
      by_cases hrect : spriteRect s x y n px py
      · rw [hH6 px py h64 h32 hrect, hG6 px py h64 h32 hrect]
        cases hb : decide (spriteBit s x y px py = 1) <;>
          cases hp : s.pixel px py <;> simp
      · rw [hH5 px py h64 h32 hrect, hG5 px py h64 h32 hrect]
    · rintro ⟨px, py, h64, h32, hrect, hbit⟩
      refine hH7 ⟨px, py, h64, h32, hrect, hbit, ?_⟩
      rw [hG6 px py h64 h32 hrect, hoff px py h64 h32 hrect, hbit]
      simp

theorem new_display_length : Processor.new.display.length = 2048 := by
  show (List.replicate (DISPLAY_WIDTH * DISPLAY_HEIGHT) false).length = 2048
  rw [List.length_replicate]
  rfl

/-- C5 witness: drawing the 1-row sprite 0xF0 (first font byte, sitting at
0x200) at (0, 0) on a fresh machine turns pixel (0,0) on, leaves pixel
(4,0) off, and leaves the flag register 0. -/
theorem C5_draw_witness :
    ∃ s2, execute 0 { Processor.new with index_register := 0x200 }
        (0xD000 + 0 * 256 + 1 * 16 + 1) = .ok s2 ∧
      s2.pixel 0 0 = true ∧ s2.pixel 4 0 = false ∧
      s2.variable_registers 15 = 0 := by
  have hbit0 : spriteBit { Processor.new with index_register := 0x200 } 0 1 0 0
      = 1 := by
    show Processor.new.memory.getD (0x200 + (0 - 0)) 0 / 2 ^ (7 - (0 - 0)) % 2 = 1
    rw [List.getD_eq_getElem?_getD, new_memory_getElem?]
    decide
  have hbit4 : spriteBit { Processor.new with index_register := 0x200 } 0 1 4 0
      = 0 := by
    show Processor.new.memory.getD (0x200 + (0 - 0)) 0 / 2 ^ (7 - (4 - 0)) % 2 = 0
    rw [List.getD_eq_getElem?_getD, new_memory_getElem?]
    decide
  have hallfalse : ∀ px py : Nat, px < 64 → py < 32 →
      ({ Processor.new with index_register := 0x200 } : Processor).pixel px py
        = false := by
    intro px py h1 h2
    show ((List.replicate (DISPLAY_WIDTH * DISPLAY_HEIGHT)
      false)[py * DISPLAY_WIDTH + px]?).getD false = false
    rw [List.getElem?_replicate]
    split_ifs <;> rfl
  obtain ⟨s2, he, hout, hin, hvf, hor, hoff, hregs, -⟩ :=
    C5_draw 0 0 0 1 1 { Processor.new with index_register := 0x200 }
      (by decide) (by decide) (by decide) new_display_length
      (by show (0x200 : Nat) + 1 ≤ Processor.new.memory.length
          rw [new_memory_length]
          omega)
  refine ⟨s2, he, ?_, ?_, ?_⟩
  · rw [hin 0 0 (by decide) (by decide) (by decide)]
    simp only [hbit0]
    rw [hallfalse 0 0 (by decide) (by decide)]
    decide
  · rw [hin 4 0 (by decide) (by decide) (by decide)]
    simp only [hbit4]
    rw [hallfalse 4 0 (by decide) (by decide)]
    decide
  · rcases hor with h1 | h0
    · obtain ⟨px, py, h64, h32, -, -, hpix⟩ := hvf.mp h1
      rw [hallfalse px py h64 h32] at hpix
      exact absurd hpix (by decide)
    · exact h0

/-! Claim C1: crash-freedom of step. The fetch, the sprite-row reads of the
draw and the three BCD stores use direct Vec indexing in the source, so they
panic (crash) instead of producing the typed MemoryAccessOutOfBounds error.
The helpers below show every other part of execute is crash-free. -/

theorem seq_no_crash {r : ExecResult} {f : Processor → ExecResult}
    (hr : r ≠ .crash) (hf : ∀ u, f u ≠ .crash) : r.seq f ≠ .crash := by
  cases r with
  | crash => exact absurd rfl hr
  | err e u => simp [ExecResult.seq]
  | ok u => simpa [ExecResult.seq] using hf u

theorem fx55Loop_no_crash (fuel : Nat) : ∀ (i : Nat) (s : Processor),
    fx55Loop s fuel i ≠ .crash := by
  induction fuel with
  | zero => intro i s; simp [fx55Loop]
  | succ fuel ih =>
    intro i s
    rcases hreg : s.register i with e | v
    · simp [fx55Loop, hreg]
    · rcases hw : s.writeMem ((s.index_register + i) % 65536) v with e | s2
      · simp [fx55Loop, hreg, hw]
      · simp only [fx55Loop, hreg, hw]
        exact ih (i + 1) s2

theorem fx65Loop_no_crash (fuel : Nat) : ∀ (i : Nat) (s : Processor),
    fx65Loop s fuel i ≠ .crash := by
  induction fuel with
  | zero => intro i s; simp [fx65Loop]
  | succ fuel ih =>
    intro i s
    rcases hr : s.readMem ((s.index_register + i) % 65536) with e | v
    · simp [fx65Loop, hr]
    · rcases hsr : s.setRegister i v with e | s2
      · simp [fx65Loop, hr, hsr]
      · simp only [fx65Loop, hr, hsr]
        exact ih (i + 1) s2

theorem execF1_no_crash (s : Processor) (n1 n2 n3 : Nat) :
    execF1 s n1 n2 n3 ≠ .crash := by
  unfold execF1
  split_ifs
  · rcases hreg : s.setRegister n1 s.delay_timer with e | s2 <;> simp [hreg]
  · rcases hreg : s.register n1 with e | v <;> simp [hreg]
  · rcases hreg : s.register n1 with e | v <;> simp [hreg]
  · simp

theorem execF2_no_crash (s : Processor) (n1 n2 n3 : Nat) :
    execF2 s n1 n2 n3 ≠ .crash := by
  rcases hreg : s.register n1 with e | v <;>
    simp [execF2, hreg, Processor.setRegister] <;> split_ifs <;> simp

theorem execF3_no_crash (s : Processor) (n1 n2 n3 : Nat) :
    execF3 s n1 n2 n3 ≠ .crash := by
  rcases hb : s.blocking with _ | bs
  · simp [execF3, hb] <;> split_ifs <;> simp
  · rcases hcu : bs.compareAndUpdate s.keys with ⟨_ | key, bs2⟩ <;>
      simp [execF3, hb, hcu, Processor.setRegister] <;> split_ifs <;> simp

theorem execF4_no_crash (s : Processor) (n1 n2 n3 : Nat)
    (h33 : n2 = 3 ∧ n3 = 3 → s.index_register + 2 < s.memory.length) :
    execF4 s n1 n2 n3 ≠ .crash := by
  unfold execF4
  split_ifs with h1 h2 h3 h4
  · rcases hreg : s.register n1 with e | v <;>
      simp [hreg] <;> split_ifs <;> simp
  · have hI : s.index_register + 2 < s.memory.length := h33 h2
    rcases hreg : s.register n1 with e | v
    · simp [hreg]
    · have hv1 : vecSet s.memory s.index_register (v / 100) =
          some (s.memory.set s.index_register (v / 100)) := by
        unfold vecSet
        rw [if_pos (by omega)]
      have hv2 : vecSet (s.memory.set s.index_register (v / 100))
          (s.index_register + 1) (v % 100 / 10) =
          some ((s.memory.set s.index_register (v / 100)).set
            (s.index_register + 1) (v % 100 / 10)) := by
        unfold vecSet
        rw [if_pos (by rw [List.length_set]; omega)]
      have hv3 : vecSet ((s.memory.set s.index_register (v / 100)).set
          (s.index_register + 1) (v % 100 / 10))
          (s.index_register + 2) (v % 100 % 10) =
          some (((s.memory.set s.index_register (v / 100)).set
            (s.index_register + 1) (v % 100 / 10)).set
            (s.index_register + 2) (v % 100 % 10)) := by
        unfold vecSet
        rw [if_pos (by rw [List.length_set, List.length_set]; omega)]
      simp [hreg, hv1, hv2, hv3]
  · rcases hloop : fx55Loop s (n1 + 1) 0 with _ | ⟨e, s2⟩ | s2
    · exact absurd hloop (fx55Loop_no_crash (n1 + 1) 0 s)
    · simp [hloop]
    · simp [hloop] <;> split_ifs <;> simp
  · rcases hloop : fx65Loop s (n1 + 1) 0 with _ | ⟨e, s2⟩ | s2
    · exact absurd hloop (fx65Loop_no_crash (n1 + 1) 0 s)
    · simp [hloop]
    · simp [hloop] <;> split_ifs <;> simp
  · simp

set_option maxHeartbeats 1000000 in
theorem execute_no_crash (rnd instr : Nat) (t : Processor)
    (hmem : t.memory.length = 4096) (hdisp : t.display.length = 2048)
    (hdraw : nibble instr 0 = 0xD → t.index_register + nibble instr 3 ≤ 4096)
    (hbcd : nibble instr 0 = 0xF → nibble instr 2 = 3 → nibble instr 3 = 3 →
      t.index_register + 2 < 4096) :
    execute rnd t instr ≠ .crash := by
  by_cases he0 : instr = 0x00e0
  · simp [execute, he0]
  by_cases hee : instr = 0x00ee
  · rcases hs : t.stack with _ | ⟨a, rest⟩ <;> simp [execute, he0, hee, hs]
  obtain ⟨k, hk, hklt⟩ : ∃ k, nibble instr 0 = k ∧ k < 16 :=
    ⟨_, rfl, nibble_lt instr 0⟩
  interval_cases k
  · simp [execute, he0, hee, hk]
  · simp [execute, he0, hee, hk]
  · simp [execute, he0, hee, hk]
  · simp [execute, he0, hee, hk] <;> split_ifs <;> simp
  · simp [execute, he0, hee, hk] <;> split_ifs <;> simp
  · simp [execute, he0, hee, hk] <;> split_ifs <;> simp
  · simp [execute, he0, hee, hk]
  · simp [execute, he0, hee, hk]
  · simp only [execute, hk, if_neg he0, if_neg hee,
      if_neg (show ¬(8 : Nat) = 1 by decide), if_neg (show ¬(8 : Nat) = 2 by decide),
      if_neg (show ¬(8 : Nat) = 3 by decide), if_neg (show ¬(8 : Nat) = 4 by decide),
      if_neg (show ¬(8 : Nat) = 5 by decide), if_neg (show ¬(8 : Nat) = 6 by decide),
      if_neg (show ¬(8 : Nat) = 7 by decide), if_pos (show (8 : Nat) = 8 from rfl)]
    rcases hr1 : t.register (nibble instr 1) with e | vx
    · simp [hr1]
    rcases hr2 : t.register (nibble instr 2) with e | vy
    · simp [hr1, hr2]
    simp only [hr1, hr2]
    obtain ⟨m, hm, hmlt⟩ : ∃ m, nibble instr 3 = m ∧ m < 16 :=
      ⟨_, rfl, nibble_lt instr 3⟩
    interval_cases m <;>
      simp only [hm] <;>
      simp [ExecResult.seq, register_eq, setRegister_eq, nibble_lt,
        Processor.setFlagRegister] <;>
      split_ifs <;>
      simp [ExecResult.seq, register_eq, setRegister_eq, nibble_lt,
        Processor.setFlagRegister]
  · simp [execute, he0, hee, hk] <;> split_ifs <;> simp
  · simp [execute, he0, hee, hk]
  · simp [execute, he0, hee, hk, register_eq, nibble_lt] <;> split_ifs <;> simp
  · simp [execute, he0, hee, hk, setRegister_eq, nibble_lt]
  · have hbound : t.index_register + 0 + nibble instr 3 ≤ t.memory.length := by
      have := hdraw hk
      omega
    obtain ⟨s2, hdr, -⟩ := drawRows_spec (nibble instr 3) 0
      (t.variable_registers (nibble instr 1) % 64)
      (t.variable_registers (nibble instr 2) % 32)
      { t with variable_registers := updateReg t.variable_registers 0xF 0 }
      hdisp (Nat.mod_lt _ (by omega)) (Nat.mod_lt _ (by omega)) hbound
    simp [execute, he0, hee, hk, DISPLAY_WIDTH, DISPLAY_HEIGHT, hdr]
  · rcases htf : Key.tryFrom (t.variable_registers (nibble instr 1)) with _ | key <;>
      simp [execute, he0, hee, hk, register_eq, nibble_lt, htf] <;>
      split_ifs <;> simp
  · by_cases h33 : nibble instr 2 = 3 ∧ nibble instr 3 = 3
    · have hI : t.index_register + 2 < 4096 := hbcd hk h33.1 h33.2
      have e1 : execF1 t (nibble instr 1) (nibble instr 2) (nibble instr 3) =
          .ok t := by
        unfold execF1
        rw [if_neg (by omega), if_neg (by omega), if_neg (by omega)]
      have e2 : execF2 t (nibble instr 1) (nibble instr 2) (nibble instr 3) =
          .ok t := by
        unfold execF2
        rw [if_neg (by omega)]
      have e3 : execF3 t (nibble instr 1) (nibble instr 2) (nibble instr 3) =
          .ok t := by
        unfold execF3
        rw [if_neg (by omega)]
      simp only [execute, he0, hee, hk]
      simp [e1, e2, e3, ExecResult.seq]
      exact execF4_no_crash t _ _ _ (fun _ => by omega)
    · simp [execute, he0, hee, hk]
      apply seq_no_crash
      · apply seq_no_crash
        · apply seq_no_crash
          · exact execF1_no_crash _ _ _ _
          · intro u
            exact execF2_no_crash _ _ _ _
        · intro u
          exact execF3_no_crash _ _ _ _
      · intro u
        exact execF4_no_crash _ _ _ _ (fun hc => absurd hc h33)

/-- C1, counterexample: step is not panic-free. With the program counter at
0x0FFF (a 12-bit address inside memory), the fetch of the low instruction
byte indexes memory at 0x1000, past the end of the 4096-byte Vec, and the
source panics (self.memory[(address + 1) as usize] in fn step) instead of
returning the typed out-of-bounds execution error. -/
theorem C1_no_panic_counterexample :
    step 0 { Processor.new with program_counter := 0x0FFF } = .crash := by
  have h1 : Processor.new.memory[(0x0FFF : Nat)]? = some 0 := by
    rw [new_memory_getElem?]
    decide
  have h2 : Processor.new.memory[(0x0FFF : Nat) + 1]? = none := by
    rw [new_memory_getElem?]
    decide
  simp only [step, h1, h2]

/-- C1, amended: step never crashes provided the direct Vec indexing stays in
bounds, namely when (a) memory has its invariant length 4096 and the display
its 2048 pixels, (b) the program counter and its successor are inside memory
(fetch), (c) for a DXYN instruction the index register plus the row count
stays within memory (sprite-row reads), and (d) for an FX33 instruction the
index register plus 2 is inside memory (the three BCD stores). Under these
bounds every outcome is a typed result: Ok or an ExecutionError (stack
underflow, register index out of range, memory access out of bounds, unknown
instruction) wrapped by step. -/
theorem C1_no_panic_amended (rnd : Nat) (s : Processor)
    (hmem : s.memory.length = 4096) (hdisp : s.display.length = 2048)
    (hpc : s.program_counter + 1 < 4096)
    (hdraw : nibble (fetched s) 0 = 0xD →
      s.index_register + nibble (fetched s) 3 ≤ 4096)
    (hbcd : nibble (fetched s) 0 = 0xF → nibble (fetched s) 2 = 3 →
      nibble (fetched s) 3 = 3 → s.index_register + 2 < 4096) :
    step rnd s ≠ .crash := by
  have h0 : s.program_counter < s.memory.length := by omega
  have h1 : s.program_counter + 1 < s.memory.length := by omega
  obtain ⟨b0, hb0⟩ : ∃ b, s.memory[s.program_counter]? = some b :=
    ⟨_, List.getElem?_eq_getElem h0⟩
  obtain ⟨b1, hb1⟩ : ∃ b, s.memory[s.program_counter + 1]? = some b :=
    ⟨_, List.getElem?_eq_getElem h1⟩
  have hfe : fetched s = b0 * 256 + b1 := by
    unfold fetched
    rw [List.getD_eq_getElem?_getD, List.getD_eq_getElem?_getD, hb0, hb1]
    rfl
  rw [hfe] at hdraw hbcd
  have hexec := execute_no_crash rnd (b0 * 256 + b1)
    { s with program_counter := (s.program_counter + 2) % 65536 }
    hmem hdisp hdraw hbcd
  simp only [step, hb0, hb1]
  cases hx : execute rnd { s with program_counter := (s.program_counter + 2) % 65536 }
      (b0 * 256 + b1) with
  | crash => exact absurd hx hexec
  | err e s2 => simp
  | ok s2 => simp

theorem C1_no_panic_amended_witness : step 0 Processor.new ≠ .crash := by
  have hf : fetched Processor.new = 0xF090 := by
    unfold fetched
    rw [List.getD_eq_getElem?_getD, List.getD_eq_getElem?_getD,
      new_memory_getElem?, new_memory_getElem?]
    decide
  exact C1_no_panic_amended 0 Processor.new new_memory_length new_display_length
    (by decide)
    (by intro hcon
        rw [hf] at hcon
        exact absurd hcon (by decide))
    (by intro hcon1 hcon2 hcon3
        rw [hf] at hcon2
        exact absurd hcon2 (by decide))

end Chip8
